import Mathlib

/-!
Shallow embedding of the turn-based battle engine of
`projet-red_HatsuneWorld` (file `src/hatsune_game.go`, the second,
current program in that file: types at lines 1101-1189, entity helpers at
1593-1790, ability resolution at 2511-2763, the solo combat loop at
2769-3078 and the party combat loop at 3083-3509).

Modelling conventions:
  * Go `int` is modelled as `Int`; Go integer division (which truncates
    toward zero) as `Int.tdiv`.
  * the pseudo random generator `g.rng` is an explicit stream of naturals:
    `rand.Intn n` consumes the head `r` and yields `r % n`, so every
    concrete Go execution corresponds to one stream.
  * terminal input is an explicit list of strings; `read` consumes the
    head (an exhausted list models a reader that blocks forever, which the
    loops surface as a distinguished `starved` outcome).
  * the global `menuReturnRequested` flag set by `read` on the input
    `"menu"` (case-insensitively) is threaded through the states.
  * `fmt` output is dropped; every other state mutation is kept.
-/

set_option linter.unusedVariables false
set_option maxRecDepth 100000

namespace HatsuneWorld

/-- ASCII lower-casing of one character, enough to model
`strings.EqualFold(trimmed, "menu")` on the engine's ASCII inputs. -/
def lowerChar (c : Char) : Char :=
  if 'A' ≤ c ∧ c ≤ 'Z' then Char.ofNat (c.toNat + 32) else c

/-- Does a line of input trigger the `menuReturnRequested` flag in `read`
(src/hatsune_game.go:1593-1603)? -/
def isMenuInput (s : String) : Bool :=
  s.data.map lowerChar == "menu".data

/-- Digit run of `strconv.Atoi`: at least one digit, most significant first. -/
def parseDigitsGo : List Char → Nat → Option Nat
  | [], acc => some acc
  | c :: cs, acc =>
      if c.isDigit then parseDigitsGo cs (acc * 10 + (c.toNat - 48)) else none

/-- Model of `strconv.Atoi`: optional sign followed by a non-empty digit
run (overflow is irrelevant at the engine's input sizes). -/
def parseIntGo (s : String) : Option Int :=
  match s.data with
  | [] => none
  | '+' :: rest =>
      if rest = [] then none else (parseDigitsGo rest 0).map Int.ofNat
  | '-' :: rest =>
      if rest = [] then none else (parseDigitsGo rest 0).map (fun n => -(n : Int))
  | l => (parseDigitsGo l 0).map Int.ofNat

/-- Largest `j ≤ k` with `j * j ≤ n` (0 when none): helper for `isqrt`. -/
def isqrtFrom (n : Nat) : Nat → Nat
  | 0 => 0
  | k + 1 => if (k + 1) * (k + 1) ≤ n then k + 1 else isqrtFrom n k

/-- Executable integer square root: `isqrt n` is the floor of `√n`
(proved below in `isqrt_spec`). Used to model the exact value of
`int(float64(a) * math.Sqrt(float64(b)))`, which for the game's attack
magnitudes equals `⌊a·√b⌋ = isqrt (b·a²)`. -/
def isqrt (n : Nat) : Nat := isqrtFrom n n

/-- `rand.Intn n` over the explicit random stream. -/
def intn (rng : List Nat) (n : Nat) : Nat × List Nat :=
  match rng with
  | [] => (0, [])
  | r :: rest => (r % n, rest)

/-- `Character` (src/hatsune_game.go:1140-1160). -/
structure Character where
  name : String
  maxHP : Int
  hp : Int
  maxMana : Int
  mana : Int
  level : Int
  xp : Int
  betPts : Int
  inventory : List String
  inventoryMax : Int
  unlocked : Bool
  hasNoteSpell : Bool
  specialUsed : Bool
  battleBoost : Int
  ignoreGuard : Bool
  dodgeNext : Bool
  shieldHP : Int
deriving Repr, DecidableEq, Inhabited

/-- `Enemy` (src/hatsune_game.go:1163-1176); the `EnemyType` tag is a
string in the source. -/
structure Enemy where
  name : String
  etype : String
  maxHP : Int
  hp : Int
  attack : Int
  critTimer : Int
  style : String
  poisonTurns : Int
  poisonDmg : Int
  weakenTurns : Int
  silenceTurns : Int
deriving Repr, DecidableEq, Inhabited

/-- `battleOptions` (src/hatsune_game.go:1179-1189). -/
structure battleOptions where
  allowBet : Bool
  allowEscape : Bool
  intro : List String
  victory : List String
  defeat : List String
  rewardXP : Int
  rewardGold : Int
  rewardBetPts : Int
  isBoss : Bool
deriving Repr, DecidableEq, Inhabited

/-- `ItemDefinition` (src/hatsune_game.go:1120-1128). -/
structure ItemDefinition where
  id : String
  name : String
  itype : String
  price : Int
  effectID : String
  betPointCost : Int
deriving Repr, DecidableEq, Inhabited

/-- `resetCombatFlags` (src/hatsune_game.go:1769-1775). -/
def resetCombatFlags (c : Character) : Character :=
  { c with specialUsed := false, battleBoost := 0, ignoreGuard := false,
           dodgeNext := false, shieldHP := 0 }

/-- The `for c.XP >= 100` level-up loop inside `gainXP`
(src/hatsune_game.go:1744-1752): subtract 100, raise level and both
maxima, refill health and mana. -/
def levelUpLoop (c : Character) : Character :=
  if 100 ≤ c.xp then
    levelUpLoop { c with xp := c.xp - 100, level := c.level + 1,
                         maxHP := c.maxHP + 6, maxMana := c.maxMana + 4,
                         hp := c.maxHP + 6, mana := c.maxMana + 4 }
  else c
termination_by c.xp.toNat
decreasing_by simp_wf; omega

/-- `gainXP` (src/hatsune_game.go:1742-1753). -/
def gainXP (c : Character) (amount : Int) : Character :=
  levelUpLoop { c with xp := c.xp + amount }

/-- `reviveIfNeeded` (src/hatsune_game.go:1756-1766): at or below zero
health, restore `max(1, maxHP/2)` and clear the shield pool. -/
def reviveIfNeeded (c : Character) : Character :=
  if c.hp ≤ 0 then
    { c with hp := if c.maxHP.tdiv 2 < 1 then 1 else c.maxHP.tdiv 2, shieldHP := 0 }
  else c

/-- `absorbShieldDamage` (src/hatsune_game.go:1638-1649): returns the
damage left after the shield pool absorbs its share (the `target == nil`
guard of the source cannot fire in this embedding). -/
def absorbShieldDamage (c : Character) (dmg : Int) : Int × Character :=
  if c.shieldHP ≤ 0 ∨ dmg ≤ 0 then (dmg, c)
  else
    let absorbed := if dmg > c.shieldHP then c.shieldHP else dmg
    (dmg - absorbed, { c with shieldHP := c.shieldHP - absorbed })

/-- `baseAttack` (src/hatsune_game.go:2511-2522). -/
def baseAttack (c : Character) : Int :=
  match c.name with
  | "Kaaris" => 12
  | "Michael Jackson" => 10
  | "Emmanuel Macron" => 9
  | _ => 9

/-- Damage applied to an enemy with the ubiquitous
`enemy.HP -= dmg; if enemy.HP < 0 { enemy.HP = 0 }` clamp. -/
def hitEnemy (e : Enemy) (dmg : Int) : Enemy :=
  { e with hp := if e.hp - dmg < 0 then 0 else e.hp - dmg }

/-- Damage applied to a character with the
`HP -= dmg; if HP < 0 { HP = 0 }` clamp. -/
def hitChar (c : Character) (dmg : Int) : Character :=
  { c with hp := if c.hp - dmg < 0 then 0 else c.hp - dmg }

/-- The shared player damage pattern: multiply by `BattleBoost` when set,
then add the guard-ignore bonus and clear the flag (as in
src/hatsune_game.go:2843-2849 and every spell/special damage branch). -/
def boostGuard (c : Character) (dmg guardBonus : Int) : Int × Character :=
  let d := if 0 < c.battleBoost then dmg * c.battleBoost else dmg
  if c.ignoreGuard then (d + guardBonus, { c with ignoreGuard := false })
  else (d, c)

/-- The item catalog `items` (src/hatsune_game.go:1410-1432), keyed by
identifier; descriptions are dropped, prices and effect ids kept. -/
def itemsFind (id : String) : Option ItemDefinition :=
  match id with
  | "potion_hp" => some ⟨"potion_hp", "Potion de vie", "consumable", 3, "heal", 0⟩
  | "potion_mana" => some ⟨"potion_mana", "Potion d'energie", "consumable", 5, "mana", 0⟩
  | "potion_poison" => some ⟨"potion_poison", "Potion contaminee", "consumable", 6, "poison", 0⟩
  | "grimoire_note" => some ⟨"grimoire_note", "Livre Note explosive", "special", 25, "note", 0⟩
  | "bag_upgrade" => some ⟨"bag_upgrade", "Extension sacoche", "special", 30, "bag", 0⟩
  | "mat_loup" => some ⟨"mat_loup", "Sample de Loup", "material", 4, "", 0⟩
  | "mat_troll" => some ⟨"mat_troll", "Partition de Troll", "material", 7, "", 0⟩
  | "mat_sanglier" => some ⟨"mat_sanglier", "Cable de Sanglier", "material", 3, "", 0⟩
  | "mat_corb" => some ⟨"mat_corb", "Plume de Corbeau", "material", 1, "", 0⟩
  | "equip_hat" => some ⟨"equip_hat", "Chapeau de scene", "equipment", 0, "hat", 0⟩
  | "equip_boot" => some ⟨"equip_boot", "Bottes de scene", "equipment", 0, "boot", 0⟩
  | "equip_tunic" => some ⟨"equip_tunic", "Tunique de scene", "equipment", 0, "tunic", 0⟩
  | "equip_glove" => some ⟨"equip_glove", "Gant legendaire", "equipment", 0, "glove", 0⟩
  | "disc_loup" => some ⟨"disc_loup", "Disque Loup", "special", 0, "disc_hater", 0⟩
  | "disc_troll" => some ⟨"disc_troll", "Disque Troll", "special", 0, "disc_crew", 0⟩
  | "disc_sanglier" => some ⟨"disc_sanglier", "Disque Sanglier", "special", 0, "disc_boss", 0⟩
  | "disc_corb" => some ⟨"disc_corb", "Disque Corbeau", "special", 0, "disc_poison", 0⟩
  | "boost_x2" => some ⟨"boost_x2", "Boost degats x2", "boost", 0, "boost_x2", 15⟩
  | "boost_x4" => some ⟨"boost_x4", "Boost degats x4", "boost", 0, "boost_x4", 40⟩
  | "pass_label" => some ⟨"pass_label", "Pass presidentiel", "special", 0, "pass", 0⟩
  | "crew_totem" => some ⟨"crew_totem", "Pouvoir d'invocation", "special", 0, "crew", 0⟩
  | _ => none

/-- The `effects` map (src/hatsune_game.go:1446-1592): one pure
state-mutation per effect id, returning whether the item is consumed.
`none` models an id absent from the map (a nil handler in `applyItem`).
The match keys are the string values of the `eff*` constants
(src/hatsune_game.go:1389-1407). -/
def applyEffect (eid : String) (c : Character) (en : Option Enemy) :
    Option (Bool × Character × Option Enemy) :=
  match eid with
  | "heal" =>
      some (true,
        if c.maxHP < c.hp + 50 then { c with hp := c.maxHP } else { c with hp := c.hp + 50 },
        en)
  | "mana" =>
      some (true,
        if c.maxMana < c.mana + 20 then { c with mana := c.maxMana }
        else { c with mana := c.mana + 20 },
        en)
  | "poison" => some (true, hitChar c 30, en)
  | "note" =>
      if c.hasNoteSpell then some (false, c, en)
      else some (true, { c with hasNoteSpell := true }, en)
  | "bag" =>
      if 40 ≤ c.inventoryMax then some (false, c, en)
      else some (true, { c with inventoryMax := c.inventoryMax + 10 }, en)
  | "hat" => some (true, { c with maxHP := c.maxHP + 10, hp := c.hp + 10 }, en)
  | "boot" => some (true, { c with maxHP := c.maxHP + 15, hp := c.hp + 15 }, en)
  | "tunic" => some (true, { c with maxHP := c.maxHP + 25, hp := c.hp + 25 }, en)
  | "glove" => some (true, { c with maxHP := c.maxHP + 25, hp := c.hp + 25 }, en)
  | "disc_hater" =>
      match en with
      | none => some (false, c, none)
      | some e =>
          let dmg : Int := if e.etype = "hater" then 20 else 10
          some (true, c, some (hitEnemy e dmg))
  | "disc_crew" =>
      match en with
      | none => some (false, c, none)
      | some e =>
          let dmg : Int := if e.etype = "crew" then 30 else 15
          some (true, c, some (hitEnemy e dmg))
  | "disc_boss" => some (true, { c with ignoreGuard := true }, en)
  | "disc_poison" =>
      match en with
      | none => some (false, c, none)
      | some e => some (true, c, some { e with poisonTurns := 2, poisonDmg := 5 })
  | "boost_x2" => some (true, { c with battleBoost := 2 }, en)
  | "boost_x4" => some (true, { c with battleBoost := 4 }, en)
  | "pass" => some (false, c, en)
  | "crew" =>
      match en with
      | none => some (false, c, none)
      | some e => some (true, c, some (hitEnemy e 25))
  | _ => none

/-- `applyItem` (src/hatsune_game.go:1691-1704): catalog lookup, then the
effect handler; unknown items or missing handlers consume nothing. -/
def applyItem (c : Character) (en : Option Enemy) (id : String) :
    Bool × Character × Option Enemy :=
  match itemsFind id with
  | none => (false, c, en)
  | some d =>
      match applyEffect d.effectID c en with
      | none => (false, c, en)
      | some r => r

/-- One `read(reader)` call: consume the next input line (an exhausted
reader yields `""` as in Go, where EOF returns the empty trimmed line) and
raise the menu flag on a case-insensitive `"menu"`
(src/hatsune_game.go:1593-1603). -/
def readInput (inputs : List String) (menuReq : Bool) : String × List String × Bool :=
  match inputs with
  | [] => ("", [], menuReq)
  | x :: xs => (x, xs, menuReq || isMenuInput x)

/-- Exact value of `int(math.Round(float64(d) * 0.6))` for `d ≥ 0`:
`3·d/5` never has fractional part one half, the double rounding error of
`0.6` cannot move the result across the nearest integer at the game's
damage magnitudes, and rounding to nearest is `⌊(3d + 2) / 5⌋`. Negative
`d` (unreachable: enemy attack values are positive) mirrors through zero,
matching `math.Round`'s round-half-away-from-zero. -/
def weakenedDamage (d : Int) : Int :=
  if 0 ≤ d then (3 * d + 2) / 5 else -((3 * (-d) + 2) / 5)

/-- The enemy attack computation shared verbatim by the solo loop
(src/hatsune_game.go:3009-3023) and the party loop
(src/hatsune_game.go:3442-3456): apply the weaken debuff (0.6 rounded,
floor 1, counter decremented), then the critical-strike countdown (at 1
or below: double damage and reset to 3, otherwise decrement). Returns the
damage dealt and the updated enemy. -/
def enemyStrike (e : Enemy) : Int × Enemy :=
  let dmg := e.attack
  let p : Int × Enemy :=
    if 0 < e.weakenTurns then
      let d := weakenedDamage dmg
      let d := if d < 1 then 1 else d
      (d, { e with weakenTurns := e.weakenTurns - 1 })
    else (dmg, e)
  let dmg := p.1
  let e := p.2
  if e.critTimer ≤ 1 then (dmg * 2, { e with critTimer := 3 })
  else (dmg, { e with critTimer := e.critTimer - 1 })

/-- Iterated enemy strikes (used to state the critical-cycle property). -/
def strikes (e : Enemy) : Nat → Enemy
  | 0 => e
  | n + 1 => (enemyStrike (strikes e n)).2

/-- `allEnemiesDown` (src/hatsune_game.go:3083-3090). -/
def allEnemiesDown (enemies : List Enemy) : Bool :=
  enemies.all fun e => e.hp ≤ 0

/-- `allAlliesDown` (src/hatsune_game.go:3093-3100). -/
def allAlliesDown (party : List Character) : Bool :=
  party.all fun c => c.hp ≤ 0

/-- Indices of living party members, in roster order. -/
def aliveIndices (party : List Character) : List Nat :=
  (List.range party.length).filter fun i => 0 < (party.getD i default).hp

/-- `targetAlive` (src/hatsune_game.go:3103-3114): a uniformly random
living member (as an index), or `none` when everyone is down. -/
def targetAlive (rng : List Nat) (party : List Character) : Option Nat × List Nat :=
  let alive := aliveIndices party
  if alive.isEmpty then (none, rng)
  else
    let p := intn rng alive.length
    (some (alive.getD p.1 0), p.2)

/-- `firstAliveEnemy` positional helper. -/
def firstAliveFrom : List Enemy → Nat → Option Nat
  | [], _ => none
  | e :: es, i => if 0 < e.hp then some i else firstAliveFrom es (i + 1)

/-- `firstAliveEnemy` (src/hatsune_game.go:3478-3485): index of the first
enemy still standing (`none` models the source's `-1`). -/
def firstAliveEnemy (enemies : List Enemy) : Option Nat :=
  firstAliveFrom enemies 0

/-- Result of `selectEnemy`: a picked index with the remaining inputs and
menu flag, the empty-list early return, a menu-return abort, or an
exhausted reader (on which the source loops forever re-prompting). -/
inductive SelRes where
  | pick (idx : Nat) (inputs : List String) (menuReq : Bool)
  | noEnemies
  | abort (inputs : List String) (menuReq : Bool)
  | exhausted
deriving Repr, DecidableEq

/-- The re-prompting loop of `selectEnemy` (src/hatsune_game.go:3492-3508):
an unparsable number, an out-of-range index or a defeated target re-prompts
without leaving the loop. -/
def selectEnemyLoop (enemies : List Enemy) : List String → Bool → SelRes
  | [], _ => SelRes.exhausted
  | inp :: rest, mflag =>
      let mflag := mflag || isMenuInput inp
      if mflag then SelRes.abort rest false
      else
        match parseIntGo inp with
        | none => selectEnemyLoop enemies rest mflag
        | some idx =>
            if idx ≤ 0 ∨ (enemies.length : Int) < idx then
              selectEnemyLoop enemies rest mflag
            else if (enemies.getD (idx.toNat - 1) default).hp ≤ 0 then
              selectEnemyLoop enemies rest mflag
            else SelRes.pick (idx.toNat - 1) rest mflag

/-- `selectEnemy` (src/hatsune_game.go:3488-3509). -/
def selectEnemy (enemies : List Enemy) (inputs : List String) (mflag : Bool) : SelRes :=
  if enemies.isEmpty then SelRes.noEnemies
  else selectEnemyLoop enemies inputs mflag

/-- Does this effect id require an explicit enemy target in `useInventory`
(src/hatsune_game.go:1950-1954)? -/
def effectRequiresTarget (eid : String) : Bool :=
  match eid with
  | "disc_hater" => true
  | "disc_crew" => true
  | "disc_poison" => true
  | "crew" => true
  | _ => false

/-- Result of `useInventory`: whether an item was consumed, the updated
user, solo enemy, enemy group, inputs and menu flag; `exhausted` marks a
run into `selectEnemy` with a blocked reader. -/
inductive InvRes where
  | done (used : Bool) (c : Character) (soloEnemy : Option Enemy)
         (group : List Enemy) (inputs : List String) (menuReq : Bool)
  | exhausted
deriving Repr, DecidableEq

/-- `useInventory` (src/hatsune_game.go:1921-1988): pick an inventory
slot, resolve its target (the solo enemy, a selected group member, or
none) and apply the item, removing it when consumed. -/
def useInventory (c : Character) (soloEnemy : Option Enemy) (group : List Enemy)
    (inputs : List String) (mflag : Bool) : InvRes :=
  if c.inventory.isEmpty then InvRes.done false c soloEnemy group inputs mflag
  else
    let r := readInput inputs mflag
    let s := r.1
    let inputs := r.2.1
    let mflag := r.2.2
    if mflag then InvRes.done false c soloEnemy group inputs false
    else
      match parseIntGo s with
      | none => InvRes.done false c soloEnemy group inputs mflag
      | some n =>
          if n < 0 ∨ (c.inventory.length : Int) < n then
            InvRes.done false c soloEnemy group inputs mflag
          else if n = 0 then InvRes.done false c soloEnemy group inputs mflag
          else
            let idx := n.toNat - 1
            let id := c.inventory.getD idx ""
            let effID := match itemsFind id with
              | some d => d.effectID
              | none => ""
            if effectRequiresTarget effID then
              match soloEnemy with
              | some e =>
                  let a := applyItem c (some e) id
                  if a.1 then
                    InvRes.done true { a.2.1 with inventory := a.2.1.inventory.eraseIdx idx }
                      a.2.2 group inputs mflag
                  else InvRes.done false a.2.1 a.2.2 group inputs mflag
              | none =>
                  if ((group.filter fun e => 0 < e.hp).length = 0) then
                    InvRes.done false c soloEnemy group inputs mflag
                  else
                    match selectEnemy group inputs mflag with
                    | SelRes.exhausted => InvRes.exhausted
                    | SelRes.noEnemies => InvRes.done false c soloEnemy group inputs mflag
                    | SelRes.abort inputs2 mflag2 =>
                        InvRes.done false c soloEnemy group inputs2 mflag2
                    | SelRes.pick j inputs2 mflag2 =>
                        let a := applyItem c (group.get? j) id
                        let group2 := match a.2.2 with
                          | some e2 => group.set j e2
                          | none => group
                        if a.1 then
                          InvRes.done true
                            { a.2.1 with inventory := a.2.1.inventory.eraseIdx idx }
                            soloEnemy group2 inputs2 mflag2
                        else InvRes.done false a.2.1 soloEnemy group2 inputs2 mflag2
            else
              let a := applyItem c soloEnemy id
              if a.1 then
                InvRes.done true { a.2.1 with inventory := a.2.1.inventory.eraseIdx idx }
                  a.2.2 group inputs mflag
              else InvRes.done false a.2.1 a.2.2 group inputs mflag

/-- Call context of `performSpecial`: the party roster (the caster is
`party[cIdx]`, mirroring the Go pointer aliasing between `c` and the
`party` slice), the enemy list with the optional targeted index
(mirroring the possibly-nil `*Enemy`), inputs, random stream and the
menu-return flag. -/
structure SpecCtx where
  party : List Character
  cIdx : Nat
  enemies : List Enemy
  eIdx : Option Nat
  inputs : List String
  rng : List Nat
  menuReq : Bool
deriving Repr, DecidableEq, Inhabited

/-- The caster (`c` in the source). -/
def SpecCtx.caster (ctx : SpecCtx) : Character :=
  ctx.party.getD ctx.cIdx default

/-- Write the caster back into the roster. -/
def SpecCtx.setCaster (ctx : SpecCtx) (c : Character) : SpecCtx :=
  { ctx with party := ctx.party.set ctx.cIdx c }

/-- Dereference the enemy pointer (`none` models `enemy == nil`). -/
def SpecCtx.enemyAt (ctx : SpecCtx) : Option Enemy :=
  match ctx.eIdx with
  | none => none
  | some j => ctx.enemies.get? j

/-- Write the targeted enemy back into the list. -/
def SpecCtx.setEnemyAt (ctx : SpecCtx) (e : Enemy) : SpecCtx :=
  match ctx.eIdx with
  | none => ctx
  | some j => { ctx with enemies := ctx.enemies.set j e }

/-- Replace the random stream after a draw. -/
def SpecCtx.withRng (ctx : SpecCtx) (rng : List Nat) : SpecCtx :=
  { ctx with rng := rng }

/-- Kaaris's party-wide shield: every living ally gains 18 absorbable
points; also counts how many were protected
(src/hatsune_game.go:2610-2618). -/
def shieldAllies (party : List Character) : List Character × Nat :=
  (party.map fun a => if a.hp ≤ 0 then a else { a with shieldHP := a.shieldHP + 18 },
   (party.filter fun a => 0 < a.hp).length)

/-- Michael Jackson's party-wide heal: every living ally gains 20 health,
clamped at its maximum; also counts how many were healed
(src/hatsune_game.go:2736-2747). -/
def healAllies (party : List Character) : List Character × Nat :=
  (party.map fun a =>
     if a.hp ≤ 0 then a
     else if a.maxHP < a.hp + 20 then { a with hp := a.maxHP }
     else { a with hp := a.hp + 20 },
   (party.filter fun a => 0 < a.hp).length)

/-- `performSpecial` (src/hatsune_game.go:2526-2763): dispatch on the
caster's name, run the character's sub-menu, and resolve the chosen
branch. Returns `(used, consumeTurn, context)` — `(false, false, _)` on
any invalid or unaffordable selection. -/
def performSpecial (ctx : SpecCtx) : Bool × Bool × SpecCtx :=
  let c := ctx.caster
  match c.name with
  | "Hatsune Miku" =>
      if ¬ c.hasNoteSpell then (false, false, ctx)
      else
        match ctx.enemyAt with
        | none => (false, false, ctx)
        | some e =>
            if c.mana < 15 then (false, false, ctx)
            else
              let c := { c with mana := c.mana - 15 }
              let q := intn ctx.rng 11
              let dmg := 30 + (q.1 : Int)
              let bg := boostGuard c dmg 8
              let c := { bg.2 with specialUsed := true }
              (true, true, ((ctx.setCaster c).setEnemyAt (hitEnemy e bg.1)).withRng q.2)
  | "Kaaris" =>
      let r := readInput ctx.inputs ctx.menuReq
      let ctx := { ctx with inputs := r.2.1, menuReq := r.2.2 }
      if ctx.menuReq then (false, false, { ctx with menuReq := false })
      else
        match r.1 with
        | "1" =>
            match ctx.enemyAt with
            | none => (false, false, ctx)
            | some e =>
                let c := ctx.caster
                let q := intn ctx.rng 13
                let dmg := 34 + (q.1 : Int)
                let bg := boostGuard c dmg 10
                let c := { bg.2 with specialUsed := true }
                (true, true, ((ctx.setCaster c).setEnemyAt (hitEnemy e bg.1)).withRng q.2)
        | "2" =>
            let c := ctx.caster
            if c.mana < 10 then (false, false, ctx)
            else
              let c := { c with mana := c.mana - 10, shieldHP := c.shieldHP + 24,
                                specialUsed := true }
              (true, true, ctx.setCaster c)
        | "3" =>
            let c := ctx.caster
            if c.mana < 18 then (false, false, ctx)
            else
              let ctx := ctx.setCaster { c with mana := c.mana - 18 }
              let sa := shieldAllies ctx.party
              let ctx := { ctx with party := sa.1 }
              if sa.2 = 0 then (false, false, ctx)
              else (true, true, ctx.setCaster { ctx.caster with specialUsed := true })
        | _ => (false, false, ctx)
  | "Emmanuel Macron" =>
      match ctx.enemyAt with
      | none => (false, false, ctx)
      | some e =>
          let r := readInput ctx.inputs ctx.menuReq
          let ctx := { ctx with inputs := r.2.1, menuReq := r.2.2 }
          if ctx.menuReq then (false, false, { ctx with menuReq := false })
          else
            match r.1 with
            | "1" =>
                let c := ctx.caster
                if c.mana < 12 then (false, false, ctx)
                else
                  let c := { c with mana := c.mana - 12, specialUsed := true }
                  let e := if e.weakenTurns < 2 then { e with weakenTurns := 2 } else e
                  (true, true, (ctx.setCaster c).setEnemyAt e)
            | "2" =>
                let c := ctx.caster
                if c.mana < 14 then (false, false, ctx)
                else
                  let c := { c with mana := c.mana - 14, specialUsed := true }
                  (true, false, (ctx.setCaster c).setEnemyAt { e with silenceTurns := 1 })
            | _ => (false, false, ctx)
  | "Michael Jackson" =>
      let r := readInput ctx.inputs ctx.menuReq
      let ctx := { ctx with inputs := r.2.1, menuReq := r.2.2 }
      if ctx.menuReq then (false, false, { ctx with menuReq := false })
      else
        match r.1 with
        | "1" =>
            match ctx.enemyAt with
            | none => (false, false, ctx)
            | some e =>
                let c := ctx.caster
                if c.mana < 8 then (false, false, ctx)
                else
                  let c := { c with mana := c.mana - 8 }
                  let q := intn ctx.rng 9
                  let dmg := 20 + (q.1 : Int)
                  let bg := boostGuard c dmg 6
                  let c := { bg.2 with dodgeNext := true, specialUsed := true }
                  (true, true, ((ctx.setCaster c).setEnemyAt (hitEnemy e bg.1)).withRng q.2)
        | "2" =>
            let c := ctx.caster
            if c.mana < 12 then (false, false, ctx)
            else
              let c := { c with mana := c.mana - 12 }
              let c := if c.maxHP < c.hp + 32 then { c with hp := c.maxHP }
                       else { c with hp := c.hp + 32 }
              (true, true, ctx.setCaster { c with specialUsed := true })
        | "3" =>
            let c := ctx.caster
            if c.mana < 18 then (false, false, ctx)
            else
              let ctx := ctx.setCaster { c with mana := c.mana - 18 }
              let ha := healAllies ctx.party
              let ctx := { ctx with party := ha.1 }
              if ha.2 = 0 then (false, false, ctx)
              else (true, true, ctx.setCaster { ctx.caster with specialUsed := true })
        | _ => (false, false, ctx)
  | _ => (false, false, ctx)

/-- State threaded through the solo combat loop: the active character
(`g.active()`), the encounter-owned enemy, the session gold (`g.Gold`),
the displayed turn counter, and the input/random/menu-flag environment. -/
structure SoloState where
  player : Character
  enemy : Enemy
  gold : Int
  turn : Int
  inputs : List String
  rng : List Nat
  menuReq : Bool
deriving Repr, DecidableEq, Inhabited

/-- Exact value of the wager attack scaling
`int(float64(a) * math.Sqrt(float64(bet)))`
(src/hatsune_game.go:2805): for `a ≥ 0`, `bet ≥ 1` this is `⌊a·√bet⌋ =
isqrt (bet·a²)` — the IEEE double product and truncation agree with the
exact real value at the game's attack magnitudes (and exactly for the
perfect squares `bet ∈ {1, 4}`). -/
def scaleAttack (a : Int) (bet : Int) : Int :=
  (isqrt (bet.toNat * (a.toNat * a.toNat)) : Int)

/-- Result of the solo entry phase: the chosen bet and prepared state, or
a menu-return abort at the bet prompt. -/
inductive SoloInitRes where
  | go (bet : Int) (st : SoloState)
  | menuAbort (st : SoloState)
deriving Repr, DecidableEq

/-- Entry of `fightSolo` (src/hatsune_game.go:2770-2805): reset the
player's combat flags, restore the enemy to full health with a fresh
critical countdown and no silence, prompt for a wager when permitted, and
scale the enemy by the chosen tier. -/
def soloInit (opts : battleOptions) (st : SoloState) : SoloInitRes :=
  let player := resetCombatFlags st.player
  let enemy := { st.enemy with hp := st.enemy.maxHP }
  let enemy := if enemy.critTimer ≤ (0 : Int) then { enemy with critTimer := 3 } else enemy
  let enemy := { enemy with silenceTurns := 0 }
  let st := { st with player := player, enemy := enemy }
  let betRes : SoloInitRes :=
    if opts.allowBet ∧ 0 < player.betPts then
      let r := readInput st.inputs st.menuReq
      let st := { st with inputs := r.2.1, menuReq := r.2.2 }
      if st.menuReq then SoloInitRes.menuAbort { st with menuReq := false }
      else
        match r.1 with
        | "2" => SoloInitRes.go (if 2 ≤ player.betPts then 2 else 1) st
        | "3" => SoloInitRes.go (if 3 ≤ player.betPts then 3 else 1) st
        | "4" => SoloInitRes.go (if 4 ≤ player.betPts then 4 else 1) st
        | _ => SoloInitRes.go 1 st
    else SoloInitRes.go 1 st
  match betRes with
  | SoloInitRes.menuAbort st => SoloInitRes.menuAbort st
  | SoloInitRes.go bet st =>
      SoloInitRes.go bet
        { st with enemy := { st.enemy with
                             hp := st.enemy.hp * bet,
                             maxHP := st.enemy.hp * bet,
                             attack := scaleAttack st.enemy.attack bet } }

/-- How one solo round-loop iteration ends: continue, break with the
enemy down, an in-loop `return false` from the menu flag, or a retreat. -/
inductive SoloEv where
  | cont
  | enemyDead
  | menuExit
  | fled
deriving Repr, DecidableEq

/-- Wiring of the solo special-ability call
(src/hatsune_game.go:2905, 2923): `performSpecial(reader, player, &enemy,
[]*Character{player})`. -/
def soloSpecial (st : SoloState) : Bool × Bool × SoloState :=
  let r := performSpecial ⟨[st.player], 0, [st.enemy], some 0, st.inputs, st.rng, st.menuReq⟩
  (r.1, r.2.1,
   { st with player := r.2.2.party.getD 0 default, enemy := r.2.2.enemies.getD 0 default,
             inputs := r.2.2.inputs, rng := r.2.2.rng, menuReq := r.2.2.menuReq })

/-- Wiring of the solo inventory call (src/hatsune_game.go:2935, 2945):
`g.useInventory(reader, player, &enemy, nil)` (never starved: the solo
enemy pointer is non-nil, so `selectEnemy` is not reached). -/
def soloUseInventory (st : SoloState) : Bool × SoloState :=
  match useInventory st.player (some st.enemy) [] st.inputs st.menuReq with
  | InvRes.done u c so _ inputs mflag =>
      (u, { st with player := c, enemy := so.getD st.enemy, inputs := inputs,
                    menuReq := mflag })
  | InvRes.exhausted => (false, st)

/-- The enemy action phase of the solo loop
(src/hatsune_game.go:2989-3036): poison tick (with an early break when it
kills), silence (suppressing the attack but ticking the critical
countdown above 1), otherwise a strike resolved against dodge, shield and
health. Returns whether the enemy died of poison. -/
def soloEnemyPhase (st : SoloState) : Bool × SoloState :=
  let e := st.enemy
  let poisoned := 0 < e.poisonTurns
  let e := if poisoned then { hitEnemy e e.poisonDmg with poisonTurns := e.poisonTurns - 1 }
           else e
  if poisoned ∧ e.hp ≤ 0 then (true, { st with enemy := e })
  else if 0 < e.silenceTurns then
    (false, { st with enemy :=
      { e with silenceTurns := e.silenceTurns - 1,
               critTimer := if 1 < e.critTimer then e.critTimer - 1 else e.critTimer } })
  else
    let sk := enemyStrike e
    if st.player.dodgeNext then
      (false, { st with enemy := sk.2, player := { st.player with dodgeNext := false } })
    else
      let ab := absorbShieldDamage st.player sk.1
      let p := if 0 < ab.1 then hitChar ab.2 ab.1 else ab.2
      (false, { st with enemy := sk.2, player := p })

/-- The action dispatch of one solo round-loop iteration
(src/hatsune_game.go:2815-2988): resolve the chosen action against the
post-read state; `some (consumeTurn, st)` continues the iteration and
`none` leaves the loop early (escape or a menu return inside a
sub-reader). -/
def soloStep (opts : battleOptions) (action : String) (st : SoloState) :
    Option (Bool × SoloState) :=
  let hasNyan := st.player.name = "Hatsune Miku"
  match action with
  | "1" =>
      let q := intn st.rng 4
      let bg := boostGuard st.player (baseAttack st.player + (q.1 : Int)) 6
      some (true, { st with player := bg.2, enemy := hitEnemy st.enemy bg.1, rng := q.2 })
  | "2" =>
      if ¬ st.player.hasNoteSpell then some (false, st)
      else if st.player.mana < 10 then some (false, st)
      else
        let q := intn st.rng 6
        let bg := boostGuard { st.player with mana := st.player.mana - 10 }
                    (18 + (q.1 : Int)) 8
        some (true, { st with player := bg.2, enemy := hitEnemy st.enemy bg.1, rng := q.2 })
  | "3" =>
      if hasNyan then
        if st.player.mana < 16 then some (false, st)
        else
          let q := intn st.rng 8
          let bg := boostGuard { st.player with mana := st.player.mana - 16 }
                      (26 + (q.1 : Int)) 10
          some (true, { st with player := bg.2, enemy := hitEnemy st.enemy bg.1, rng := q.2 })
      else
        if st.player.specialUsed then some (false, st)
        else
          let sp := soloSpecial st
          if sp.2.2.menuReq then none
          else some (sp.1 && sp.2.1, sp.2.2)
  | "4" =>
      if hasNyan then
        if st.player.specialUsed then some (false, st)
        else
          let sp := soloSpecial st
          if sp.2.2.menuReq then none
          else some (sp.1 && sp.2.1, sp.2.2)
      else
        let ui := soloUseInventory st
        if ui.2.menuReq then none
        else some (ui.1, ui.2)
  | "5" =>
      if hasNyan then
        let ui := soloUseInventory st
        if ui.2.menuReq then none
        else some (ui.1, ui.2)
      else some (false, st)
  | "6" =>
      if hasNyan then some (false, st)
      else if opts.allowEscape then none
      else some (false, st)
  | "7" =>
      if hasNyan ∧ opts.allowEscape then none
      else some (false, st)
  | _ => some (false, st)

/-- One iteration of the solo round loop (src/hatsune_game.go:2807-3039):
read an action, resolve it (failed validation leaves `consumeTurn`
false), break on a dead enemy, otherwise run the enemy phase when the
turn was consumed; every continuing path increments the turn counter. -/
def soloIter (opts : battleOptions) (st : SoloState) : SoloEv × SoloState :=
  let r := readInput st.inputs st.menuReq
  let action := r.1
  let st := { st with inputs := r.2.1, menuReq := r.2.2 }
  if st.menuReq then (SoloEv.menuExit, { st with menuReq := false })
  else
    match action, soloStep opts action st with
    | "6", none => (SoloEv.fled, st)
    | "7", none => (SoloEv.fled, st)
    | _, none => (SoloEv.menuExit, { st with menuReq := false })
    | _, some (consumeTurn, st) =>
        if st.enemy.hp ≤ 0 then (SoloEv.enemyDead, st)
        else if consumeTurn then
          let ep := soloEnemyPhase st
          if ep.1 then (SoloEv.enemyDead, ep.2)
          else (SoloEv.cont, { ep.2 with turn := ep.2.turn + 1 })
        else (SoloEv.cont, { st with turn := st.turn + 1 })

/-- The victory block of `fightSolo` (src/hatsune_game.go:3040-3064):
wager-scaled experience and gold, the `bet − 1` wager refund, and the
scaled flat wager bonus. -/
def soloVictory (opts : battleOptions) (bet : Int) (st : SoloState) : SoloState :=
  let xpGain := opts.rewardXP * bet
  let player := if 0 < xpGain then gainXP st.player xpGain else st.player
  let goldGain := opts.rewardGold * bet
  let gold := if 0 < goldGain then st.gold + goldGain else st.gold
  let player := if opts.allowBet ∧ 1 < bet then
      { player with betPts := player.betPts + (bet - 1) } else player
  let player := if 0 < opts.rewardBetPts then
      { player with betPts := player.betPts + opts.rewardBetPts * bet } else player
  { st with player := player, gold := gold }

/-- The defeat block of `fightSolo` (src/hatsune_game.go:3066-3077):
revive the player and forfeit the stake, clamped at zero. -/
def soloDefeat (opts : battleOptions) (bet : Int) (st : SoloState) : SoloState :=
  let player := reviveIfNeeded st.player
  let player := if opts.allowBet ∧ 1 < bet then
      { player with betPts := if player.betPts - bet < 0 then 0 else player.betPts - bet }
    else player
  { st with player := player }

/-- Outcome of a solo encounter; the Go function returns `true` exactly
for `victory`. `starved` marks running out of fuel (a reader that blocks
forever). -/
inductive SoloOutcome where
  | victory
  | defeat
  | retreatOut
  | menuOut
  | starved
deriving Repr, DecidableEq

/-- Post-loop resolution of `fightSolo` (src/hatsune_game.go:3040-3077). -/
def soloResolve (opts : battleOptions) (bet : Int) (st : SoloState) : SoloOutcome × SoloState :=
  if st.enemy.hp ≤ 0 then (SoloOutcome.victory, soloVictory opts bet st)
  else (SoloOutcome.defeat, soloDefeat opts bet st)

/-- The solo round loop (src/hatsune_game.go:2807-3077), fuelled. -/
def soloLoop (opts : battleOptions) (bet : Int) : Nat → SoloState → SoloOutcome × SoloState
  | 0, st => (SoloOutcome.starved, st)
  | fuel + 1, st =>
      if 0 < st.enemy.hp ∧ 0 < st.player.hp then
        match soloIter opts st with
        | (SoloEv.cont, st') => soloLoop opts bet fuel st'
        | (SoloEv.enemyDead, st') => soloResolve opts bet st'
        | (SoloEv.menuExit, st') => (SoloOutcome.menuOut, st')
        | (SoloEv.fled, st') => (SoloOutcome.retreatOut, st')
      else soloResolve opts bet st

/-- `fightSolo` (src/hatsune_game.go:2769-3078). -/
def fightSolo (fuel : Nat) (opts : battleOptions) (st : SoloState) : SoloOutcome × SoloState :=
  match soloInit opts st with
  | SoloInitRes.menuAbort st' => (SoloOutcome.menuOut, st')
  | SoloInitRes.go bet st1 => soloLoop opts bet fuel st1

/-- The wager tier `fightSolo` chooses on this state (1 when no bet is
placed). -/
def soloChosenBet (opts : battleOptions) (st : SoloState) : Int :=
  match soloInit opts st with
  | SoloInitRes.menuAbort _ => 1
  | SoloInitRes.go bet _ => bet

/-- State threaded through the party combat loop. -/
structure PartyState where
  party : List Character
  enemies : List Enemy
  gold : Int
  round : Int
  inputs : List String
  rng : List Nat
  menuReq : Bool
deriving Repr, DecidableEq, Inhabited

/-- How one character's inner action loop ends
(src/hatsune_game.go:3168-3407): the turn resolved, a retreat, an in-loop
`return false` from the menu flag, or a blocked reader. -/
inductive CharRes where
  | done
  | fled
  | menuOut
  | starved
deriving Repr, DecidableEq

/-- How the big action switch leaves one inner-loop pass: the turn was
consumed, the character is re-prompted, or the encounter exits. -/
inductive SwRes where
  | turn (st : PartyState)
  | retry (st : PartyState)
  | menu (st : PartyState)
  | escape (st : PartyState)
  | starve (st : PartyState)
deriving Repr, DecidableEq

/-- The party-mode attack/spell resolution after a target was picked:
draw the damage roll, apply boost and guard-ignore, hit the chosen
enemy. -/
def partyStrikeAt (st : PartyState) (i j : Nat) (base guardBonus : Int) (spread : Nat) :
    PartyState :=
  let q := intn st.rng spread
  let bg := boostGuard (st.party.getD i default) (base + (q.1 : Int)) guardBonus
  { st with party := st.party.set i bg.2,
            enemies := st.enemies.set j (hitEnemy (st.enemies.getD j default) bg.1),
            rng := q.2 }

/-- The action switch of the party loop for character `i`
(src/hatsune_game.go:3206-3398), after the action line was read. -/
def partyAction (opts : battleOptions) (i : Nat) (action : String) (st : PartyState) : SwRes :=
  let ch := st.party.getD i default
  let hasNyan := ch.name = "Hatsune Miku"
  match action with
  | "1" =>
      (match selectEnemy st.enemies st.inputs st.menuReq with
       | SelRes.noEnemies => SwRes.retry st
       | SelRes.exhausted => SwRes.starve st
       | SelRes.abort inputs2 mflag2 =>
           SwRes.menu { st with inputs := inputs2, menuReq := mflag2 }
       | SelRes.pick j inputs2 mflag2 =>
           let st := { st with inputs := inputs2, menuReq := mflag2 }
           SwRes.turn (partyStrikeAt st i j (baseAttack ch) 6 5))
  | "2" =>
      if ¬ ch.hasNoteSpell ∨ ch.mana < 10 then SwRes.retry st
      else
        (match selectEnemy st.enemies st.inputs st.menuReq with
         | SelRes.noEnemies => SwRes.retry st
         | SelRes.exhausted => SwRes.starve st
         | SelRes.abort inputs2 mflag2 =>
             SwRes.menu { st with inputs := inputs2, menuReq := mflag2 }
         | SelRes.pick j inputs2 mflag2 =>
             let st := { st with inputs := inputs2, menuReq := mflag2,
                                 party := st.party.set i { ch with mana := ch.mana - 10 } }
             SwRes.turn (partyStrikeAt st i j 18 8 7))
  | "3" =>
      if hasNyan then
        if ch.mana < 16 then SwRes.retry st
        else
          (match selectEnemy st.enemies st.inputs st.menuReq with
           | SelRes.noEnemies => SwRes.retry st
           | SelRes.exhausted => SwRes.starve st
           | SelRes.abort inputs2 mflag2 =>
               SwRes.menu { st with inputs := inputs2, menuReq := mflag2 }
           | SelRes.pick j inputs2 mflag2 =>
               let st := { st with inputs := inputs2, menuReq := mflag2,
                                   party := st.party.set i { ch with mana := ch.mana - 16 } }
               SwRes.turn (partyStrikeAt st i j 26 10 8))
      else
        if ch.specialUsed then SwRes.retry st
        else
          match firstAliveEnemy st.enemies with
          | none => SwRes.retry st
          | some j =>
              let r := performSpecial ⟨st.party, i, st.enemies, some j,
                                       st.inputs, st.rng, st.menuReq⟩
              let st := { st with party := r.2.2.party, enemies := r.2.2.enemies,
                                  inputs := r.2.2.inputs, rng := r.2.2.rng,
                                  menuReq := r.2.2.menuReq }
              if st.menuReq then SwRes.menu { st with menuReq := false }
              else if r.1 && r.2.1 then SwRes.turn st
              else SwRes.retry st
  | "4" =>
      if hasNyan then
        if ch.specialUsed then SwRes.retry st
        else
          match firstAliveEnemy st.enemies with
          | none => SwRes.retry st
          | some j =>
              let r := performSpecial ⟨st.party, i, st.enemies, some j,
                                       st.inputs, st.rng, st.menuReq⟩
              let st := { st with party := r.2.2.party, enemies := r.2.2.enemies,
                                  inputs := r.2.2.inputs, rng := r.2.2.rng,
                                  menuReq := r.2.2.menuReq }
              if st.menuReq then SwRes.menu { st with menuReq := false }
              else if r.1 && r.2.1 then SwRes.turn st
              else SwRes.retry st
      else
        match useInventory ch none st.enemies st.inputs st.menuReq with
        | InvRes.exhausted => SwRes.starve st
        | InvRes.done u c _ group inputs mflag =>
            let st := { st with party := st.party.set i c, enemies := group,
                                inputs := inputs, menuReq := mflag }
            if st.menuReq then SwRes.menu { st with menuReq := false }
            else if u then SwRes.turn st
            else SwRes.retry st
  | "5" =>
      if hasNyan then
        match useInventory ch none st.enemies st.inputs st.menuReq with
        | InvRes.exhausted => SwRes.starve st
        | InvRes.done u c _ group inputs mflag =>
            let st := { st with party := st.party.set i c, enemies := group,
                                inputs := inputs, menuReq := mflag }
            if st.menuReq then SwRes.menu { st with menuReq := false }
            else if u then SwRes.turn st
            else SwRes.retry st
      else SwRes.retry st
  | "6" =>
      if hasNyan then SwRes.retry st
      else if opts.allowEscape then SwRes.escape st
      else SwRes.retry st
  | "7" =>
      if hasNyan ∧ opts.allowEscape then SwRes.escape st
      else SwRes.retry st
  | _ => SwRes.retry st

/-- The inner re-prompting loop for character `i`
(src/hatsune_game.go:3168-3407): an unhandled or non-consuming action
re-prompts the same character within the same round. -/
def partyCharLoop (opts : battleOptions) (i : Nat) :
    Nat → PartyState → CharRes × PartyState
  | 0, st => (CharRes.starved, st)
  | fuel + 1, st =>
      let r := readInput st.inputs st.menuReq
      let action := r.1
      let st := { st with inputs := r.2.1, menuReq := r.2.2 }
      if st.menuReq then (CharRes.menuOut, { st with menuReq := false })
      else
        match partyAction opts i action st with
        | SwRes.turn st' => (CharRes.done, st')
        | SwRes.retry st' => partyCharLoop opts i fuel st'
        | SwRes.menu st' => (CharRes.menuOut, st')
        | SwRes.escape st' => (CharRes.fled, st')
        | SwRes.starve st' => (CharRes.starved, st')

/-- The action phase over the roster in order, skipping downed members
(src/hatsune_game.go:3164-3408). -/
def partyCharsGo (opts : battleOptions) (fuel : Nat) :
    List Nat → PartyState → CharRes × PartyState
  | [], st => (CharRes.done, st)
  | i :: rest, st =>
      if (st.party.getD i default).hp ≤ 0 then partyCharsGo opts fuel rest st
      else
        match partyCharLoop opts i fuel st with
        | (CharRes.done, st') => partyCharsGo opts fuel rest st'
        | other => other

/-- One enemy's slot in the party enemy phase
(src/hatsune_game.go:3414-3471): skip the dead, tick poison (with an
early stop when it kills), honour silence, otherwise strike a uniformly
random living member through dodge and shield. -/
def partyEnemyStep (st : PartyState) (idx : Nat) : PartyState :=
  let e := st.enemies.getD idx default
  if e.hp ≤ 0 then st
  else
    let poisoned := 0 < e.poisonTurns
    let e := if poisoned then { hitEnemy e e.poisonDmg with poisonTurns := e.poisonTurns - 1 }
             else e
    if poisoned ∧ e.hp ≤ 0 then { st with enemies := st.enemies.set idx e }
    else if 0 < e.silenceTurns then
      { st with enemies := st.enemies.set idx
                  { e with silenceTurns := e.silenceTurns - 1,
                           critTimer := if 1 < e.critTimer then e.critTimer - 1
                                        else e.critTimer } }
    else
      let ta := targetAlive st.rng st.party
      let st := { st with rng := ta.2 }
      match ta.1 with
      | none => { st with enemies := st.enemies.set idx e }
      | some t =>
          let sk := enemyStrike e
          let st := { st with enemies := st.enemies.set idx sk.2 }
          let target := st.party.getD t default
          if target.dodgeNext then
            { st with party := st.party.set t { target with dodgeNext := false } }
          else
            let ab := absorbShieldDamage target sk.1
            if ab.1 ≤ 0 then { st with party := st.party.set t ab.2 }
            else { st with party := st.party.set t (hitChar ab.2 ab.1) }

/-- The enemy action phase over the enemy list in order
(src/hatsune_game.go:3414-3471). -/
def partyEnemyPhase (st : PartyState) : PartyState :=
  (List.range st.enemies.length).foldl partyEnemyStep st

/-- The victory block of `fightParty` (src/hatsune_game.go:3134-3150):
every member gains the configured experience, the session gains the
configured gold (no wager scaling in party mode). -/
def partyVictoryBlock (opts : battleOptions) (st : PartyState) : PartyState :=
  let party := if 0 < opts.rewardXP then st.party.map (gainXP · opts.rewardXP) else st.party
  let gold := if 0 < opts.rewardGold then st.gold + opts.rewardGold else st.gold
  { st with party := party, gold := gold }

/-- The defeat block of `fightParty` (src/hatsune_game.go:3152-3160):
every member is revived. -/
def partyDefeatBlock (st : PartyState) : PartyState :=
  { st with party := st.party.map reviveIfNeeded }

/-- How one full round of the party loop ends. -/
inductive RoundRes where
  | contR
  | victoryR
  | defeatR
  | fledR
  | menuR
  | starvedR
deriving Repr, DecidableEq

/-- One pass of the outer `for` of `fightParty`
(src/hatsune_game.go:3133-3473): victory/defeat checks, the action phase,
the `continue` that skips the enemy phase when the round cleared the
field, the enemy phase, and the round increment. -/
def partyRound (opts : battleOptions) (fuel : Nat) (st : PartyState) : RoundRes × PartyState :=
  if allEnemiesDown st.enemies then (RoundRes.victoryR, partyVictoryBlock opts st)
  else if allAlliesDown st.party then (RoundRes.defeatR, partyDefeatBlock st)
  else
    match partyCharsGo opts fuel (List.range st.party.length) st with
    | (CharRes.done, st') =>
        if allEnemiesDown st'.enemies then (RoundRes.contR, st')
        else
          let st'' := partyEnemyPhase st'
          (RoundRes.contR, { st'' with round := st''.round + 1 })
    | (CharRes.fled, st') => (RoundRes.fledR, st')
    | (CharRes.menuOut, st') => (RoundRes.menuR, st')
    | (CharRes.starved, st') => (RoundRes.starvedR, st')

/-- Outcome of a party encounter; the Go function returns `true` exactly
for `victory`. -/
inductive PartyOutcome where
  | victory
  | defeat
  | retreatOut
  | menuOut
  | starved
deriving Repr, DecidableEq

/-- The outer round loop of `fightParty`, fuelled. -/
def partyLoop (opts : battleOptions) (fuel : Nat) :
    Nat → PartyState → PartyOutcome × PartyState
  | 0, st => (PartyOutcome.starved, st)
  | n + 1, st =>
      match partyRound opts fuel st with
      | (RoundRes.contR, st') => partyLoop opts fuel n st'
      | (RoundRes.victoryR, st') => (PartyOutcome.victory, st')
      | (RoundRes.defeatR, st') => (PartyOutcome.defeat, st')
      | (RoundRes.fledR, st') => (PartyOutcome.retreatOut, st')
      | (RoundRes.menuR, st') => (PartyOutcome.menuOut, st')
      | (RoundRes.starvedR, st') => (PartyOutcome.starved, st')

/-- `fightParty` (src/hatsune_game.go:3117-3474): reset and revive the
roster, restore the enemies, then run rounds. -/
def fightParty (fuel : Nat) (opts : battleOptions) (st : PartyState) :
    PartyOutcome × PartyState :=
  let party := st.party.map fun ch => reviveIfNeeded (resetCombatFlags ch)
  let enemies := st.enemies.map fun e =>
    let e := { e with hp := e.maxHP }
    let e := if e.critTimer ≤ (0 : Int) then { e with critTimer := 3 } else e
    { e with silenceTurns := 0 }
  partyLoop opts fuel fuel { st with party := party, enemies := enemies }

/-- Spec-side formula (from the specification's words, for comparison
with the source behaviour): the integer nearest to `√b`. -/
def roundSqrtSpec (b : Nat) : Nat :=
  let s := isqrt b
  if s * s + s < b then s + 1 else s

/-- Closed form of the level-up loop: `k` applications of one level gain
(defined for stating and proving `levelUpLoop`'s behaviour). -/
def applyLevels (c : Character) (k : Nat) : Character :=
  { c with xp := c.xp - 100 * k, level := c.level + k,
           maxHP := c.maxHP + 6 * k, maxMana := c.maxMana + 4 * k,
           hp := if k = 0 then c.hp else c.maxHP + 6 * k,
           mana := if k = 0 then c.mana else c.maxMana + 4 * k }

/-- The resource cost of each special-ability branch, keyed by caster
name and sub-menu choice (Miku's special has no sub-menu: every choice
maps to her single 15-mana branch; Kaaris's branch 1 is free and
therefore always affordable). Costs transcribed from
src/hatsune_game.go:2540, 2593, 2605, 2649, 2662, 2692, 2715, 2730. -/
def specialBranchCost (nm choice : String) : Option Int :=
  match nm, choice with
  | "Hatsune Miku", _ => some 15
  | "Kaaris", "2" => some 10
  | "Kaaris", "3" => some 18
  | "Emmanuel Macron", "1" => some 12
  | "Emmanuel Macron", "2" => some 14
  | "Michael Jackson", "1" => some 8
  | "Michael Jackson", "2" => some 12
  | "Michael Jackson", "3" => some 18
  | _, _ => none

/-- Health invariant for one character: health within `[0, maxHP]` and a
positive maximum (every character in the game has `maxHP ≥ 1`). -/
def charInv (c : Character) : Prop :=
  0 ≤ c.hp ∧ c.hp ≤ c.maxHP ∧ 1 ≤ c.maxHP

/-- Health invariant for one enemy: health within `[0, maxHP]` and a
non-negative poison tick (poison is only ever applied with damage 5). -/
def enemyInv (e : Enemy) : Prop :=
  0 ≤ e.hp ∧ e.hp ≤ e.maxHP ∧ 0 ≤ e.poisonDmg

/-- Health invariant of a solo combat state. -/
def soloInv (st : SoloState) : Prop :=
  charInv st.player ∧ enemyInv st.enemy

/-- Health invariant of a party combat state. -/
def partyInv (st : PartyState) : Prop :=
  (∀ c ∈ st.party, charInv c) ∧ (∀ e ∈ st.enemies, enemyInv e)

instance (c : Character) : Decidable (charInv c) := by
  unfold charInv; infer_instance

instance (e : Enemy) : Decidable (enemyInv e) := by
  unfold enemyInv; infer_instance

instance (st : SoloState) : Decidable (soloInv st) := by
  unfold soloInv; infer_instance

instance (st : PartyState) : Decidable (partyInv st) := by
  unfold partyInv; infer_instance

/-- The state `soloInit` produces, ignoring whether it aborted (observer
used to state entry-scaling facts on concrete inputs). -/
def soloInitState (opts : battleOptions) (st : SoloState) : SoloState :=
  match soloInit opts st with
  | SoloInitRes.go _ s => s
  | SoloInitRes.menuAbort s => s

/-! ### Concrete test fixtures -/

/-- A plain playable character (no special name, so the generic menu
layout applies). -/
def bobChar : Character :=
  ⟨"Bob", 30, 30, 20, 20, 1, 0, 5, [], 10, true, false, false, 0, false, false, 0⟩

/-- A Kaaris-named character (class-specific base attack 12). -/
def kaarisChar : Character :=
  ⟨"Kaaris", 30, 30, 20, 20, 1, 0, 0, [], 10, true, false, false, 0, false, false, 0⟩

/-- An Emmanuel-Macron-named character (owner of the weaken and silence
specials). -/
def macronChar : Character :=
  ⟨"Emmanuel Macron", 30, 30, 20, 20, 1, 0, 0, [], 10, true, false, false, 0, false,
   false, 0⟩

/-- A small template enemy with attack 10. -/
def foeTemplate : Enemy :=
  ⟨"Sbire", "hater", 7, 7, 10, 0, "pop", 0, 0, 0, 0⟩

/-- Battle options with wagering and escape enabled. -/
def betOpts : battleOptions :=
  ⟨true, true, [], [], [], 30, 10, 0, false⟩

/-- Battle options with no wager and no rewards (used by party traces). -/
def plainOpts : battleOptions :=
  ⟨false, true, [], [], [], 0, 0, 0, false⟩

/-- Solo state about to bet tier 2 against `foeTemplate`. -/
def c1State : SoloState :=
  ⟨bobChar, foeTemplate, 0, 1, ["2"], [], false⟩

/-- Macron with too little mana for any of his specials. -/
def macronTired : Character :=
  { macronChar with mana := 5 }

/-- `performSpecial` context: tired Macron choosing branch 1 (cost 12). -/
def c6Ctx : SpecCtx :=
  ⟨[macronTired], 0, [foeTemplate], some 0, ["1"], [], false⟩

/-- Solo state: tired Macron selects the special action, then branch 1. -/
def c6Solo : SoloState :=
  ⟨macronTired, foeTemplate, 0, 1, ["3", "1"], [], false⟩

/-- Solo state: full-mana Macron casts the silencing special (action 3,
branch 2). -/
def c10Solo : SoloState :=
  ⟨macronChar, foeTemplate, 0, 1, ["3", "2"], [], false⟩

/-- A second enemy for two-enemy traces. -/
def foeB : Enemy :=
  ⟨"Sbire B", "crew", 9, 9, 3, 0, "rock", 0, 0, 0, 0⟩

/-- A downed copy of the template enemy. -/
def deadFoe : Enemy :=
  { foeTemplate with hp := 0 }

/-- Party state: Macron alone against two living enemies, choosing the
special action, branch 1, with a would-be target pick of enemy 2 queued. -/
def c4Party : PartyState :=
  ⟨[macronChar], [foeTemplate, foeB], 0, 1, ["3", "1", "2"], [], false⟩

/-- A weak second party member for the zero-health-victory trace. -/
def c3Bob : Character :=
  ⟨"Bob", 20, 20, 20, 20, 1, 0, 0, [], 10, true, false, false, 0, false, false, 0⟩

/-- Bob at zero health. -/
def koBob : Character :=
  { c3Bob with hp := 0 }

/-- An enemy strong enough to one-shot `c3Bob`. -/
def c3Foe : Enemy :=
  ⟨"E", "hater", 30, 30, 25, 0, "pop", 0, 0, 0, 0⟩

/-- Party trace in which the enemy knocks Bob out in round 1 and Kaaris
wins in round 2 (random stream: two damage rolls of 0, a target pick of
member 1, one more damage roll). -/
def c3Party : PartyState :=
  ⟨[kaarisChar, c3Bob], [c3Foe], 0, 1, ["1", "1", "1", "1", "1", "1"],
   [0, 0, 1, 0], false⟩

/-- An enemy strong enough to defeat a 5-health player in one round. -/
def strongFoe : Enemy :=
  ⟨"Boss", "boss", 100, 100, 50, 0, "rock", 0, 0, 0, 0⟩

/-- Solo state headed for defeat. -/
def c3SoloDefeatSt : SoloState :=
  ⟨{ bobChar with hp := 5, betPts := 0 }, strongFoe, 0, 1, ["1", "1", "1"],
   [0, 0, 0], false⟩

/-- Motive for the inventory walk: the user's wager points are
untouched. -/
def invBetPtsOK (c : Character) : InvRes → Prop
  | InvRes.done _ c2 _ _ _ _ => c2.betPts = c.betPts
  | InvRes.exhausted => True

/-- Motive for the solo action dispatch: a continuing step leaves the
player's wager points untouched. -/
def stepBetPtsOK (b : Int) : Option (Bool × SoloState) → Prop
  | some (_, st2) => st2.player.betPts = b
  | none => True

/-- Solo state wagering tier 2 and then attacking until victory. -/
def c2State : SoloState :=
  ⟨bobChar, foeTemplate, 0, 1, ["2", "1", "1", "1", "1", "1"], [], false⟩

/-- Health invariant lifted to the optional solo-enemy pointer. -/
def optEnemyInv : Option Enemy → Prop
  | some e => enemyInv e
  | none => True

/-- Motive for the inventory walk: user, solo enemy and group keep
their health invariants. -/
def invInvOK : InvRes → Prop
  | InvRes.done _ c2 so2 g2 _ _ => charInv c2 ∧ optEnemyInv so2 ∧ ∀ e ∈ g2, enemyInv e
  | InvRes.exhausted => True

/-- Motive for the solo action dispatch: a continuing step preserves
the solo health invariant. -/
def stepInvOK : Option (Bool × SoloState) → Prop
  | some (_, st2) => soloInv st2
  | none => True

/-- Motive for the solo entry phase: both outcomes carry an invariant
state. -/
def initInvOK : SoloInitRes → Prop
  | SoloInitRes.go _ st1 => soloInv st1
  | SoloInitRes.menuAbort st1 => soloInv st1

/-- Motive for the party action switch: every outcome carries an
invariant state. -/
def swInvOK : SwRes → Prop
  | SwRes.turn st => partyInv st
  | SwRes.retry st => partyInv st
  | SwRes.menu st => partyInv st
  | SwRes.escape st => partyInv st
  | SwRes.starve st => partyInv st

/-- Enemy-only motive for the inventory walk (needs no assumption on
the user). -/
def invGroupOK : InvRes → Prop
  | InvRes.done _ _ so2 g2 _ _ => optEnemyInv so2 ∧ ∀ e ∈ g2, enemyInv e
  | InvRes.exhausted => True

/-! ## Theorems -/

theorem isqrtFrom_sq_le (n : Nat) : ∀ k, isqrtFrom n k * isqrtFrom n k ≤ n := by
  intro k
  induction k with
  | zero => simp [isqrtFrom]
  | succ k ih =>
      unfold isqrtFrom
      split
      · assumption
      · exact ih

theorem isqrtFrom_maximal (n : Nat) :
    ∀ k j, j ≤ k → j * j ≤ n → j ≤ isqrtFrom n k := by
  intro k
  induction k with
  | zero => intro j hj _; simpa [isqrtFrom] using hj
  | succ k ih =>
      intro j hj hsq
      unfold isqrtFrom
      split
      · exact hj
      · rename_i hlt
        rcases Nat.lt_or_ge j (k + 1) with h | h
        · exact ih j (Nat.lt_succ_iff.mp h) hsq
        · have : j = k + 1 := Nat.le_antisymm hj h
          subst this
          exact absurd hsq hlt

/-- `isqrt` computes the floor of the real square root. -/
theorem isqrt_spec (n : Nat) :
    isqrt n * isqrt n ≤ n ∧ n < (isqrt n + 1) * (isqrt n + 1) := by
  refine ⟨isqrtFrom_sq_le n n, ?_⟩
  by_contra h
  push_neg at h
  have h1 : (isqrt n + 1) ≤ n := by
    calc isqrt n + 1 ≤ (isqrt n + 1) * (isqrt n + 1) := Nat.le_mul_of_pos_left _ (by omega)
    _ ≤ n := h
  have := isqrtFrom_maximal n n (isqrt n + 1) h1 h
  simp only [isqrt] at this
  omega

theorem isqrt_unique (n k : Nat) (h1 : k * k ≤ n) (h2 : n < (k + 1) * (k + 1)) :
    isqrt n = k := by
  have hs := isqrt_spec n
  rcases Nat.lt_or_ge (isqrt n) k with h | h
  · have : (isqrt n + 1) * (isqrt n + 1) ≤ k * k := Nat.mul_le_mul (by omega) (by omega)
    omega
  · rcases Nat.lt_or_ge k (isqrt n) with h' | h'
    · have : (k + 1) * (k + 1) ≤ isqrt n * isqrt n := Nat.mul_le_mul (by omega) (by omega)
      omega
    · omega

theorem applyLevels_zero (c : Character) : applyLevels c 0 = c := by
  cases c
  simp [applyLevels]

theorem applyLevels_step (c : Character) (k : Nat) :
    applyLevels { c with xp := c.xp - 100, level := c.level + 1,
                         maxHP := c.maxHP + 6, maxMana := c.maxMana + 4,
                         hp := c.maxHP + 6, mana := c.maxMana + 4 } k
      = applyLevels c (k + 1) := by
  cases c
  rcases Nat.eq_zero_or_pos k with hk | hk
  · subst hk
    simp only [applyLevels, Character.mk.injEq, and_true, true_and]
    norm_num
  · have hk0 : k ≠ 0 := by omega
    have hk1 : k + 1 ≠ 0 := by omega
    simp only [applyLevels, Character.mk.injEq, and_true, true_and, hk0, hk1,
               if_false]
    push_cast
    refine ⟨by ring, by ring, by ring, by ring, by ring, by ring⟩

theorem levelUpLoop_closed :
    ∀ (n : Nat) (c : Character), c.xp.toNat ≤ n → 0 ≤ c.xp →
      levelUpLoop c = applyLevels c (c.xp.toNat / 100) := by
  intro n
  induction n with
  | zero =>
      intro c hn hx
      have h100 : ¬ 100 ≤ c.xp := by omega
      rw [levelUpLoop, if_neg h100]
      have : c.xp.toNat / 100 = 0 := by omega
      rw [this, applyLevels_zero]
  | succ n ih =>
      intro c hn hx
      by_cases h100 : 100 ≤ c.xp
      · rw [levelUpLoop, if_pos h100]
        rw [ih _ (by simp; omega) (by simp; omega)]
        rw [applyLevels_step]
        have hk : (c.xp - 100).toNat / 100 + 1 = c.xp.toNat / 100 := by omega
        simp only [hk]
      · rw [levelUpLoop, if_neg h100]
        have : c.xp.toNat / 100 = 0 := by omega
        rw [this, applyLevels_zero]

theorem gainXP_closed (c : Character) (amount : Int) (hx : 0 ≤ c.xp) (ha : 0 ≤ amount) :
    gainXP c amount =
      applyLevels { c with xp := c.xp + amount } ((c.xp + amount).toNat / 100) := by
  unfold gainXP
  exact levelUpLoop_closed (c.xp + amount).toNat _ (by simp) (by simp; omega)

/-- C5: for every character and every non-negative amount, `gainXP`
first adds the amount to the accumulated experience and then applies one
level-up per full 100 points of the resulting total: it keeps the total
modulo 100 as experience, raises the level by `total / 100`, raises the
maximum health by 6 and the maximum mana by 4 per level gained, and, when
at least one level is gained, refills health and mana to the new maxima
(leaving them untouched otherwise). One large reward therefore applies as
many level-ups as 100 divides into the total. -/
theorem gainXP_levels_spec (c : Character) (amount : Int)
    (hx : 0 ≤ c.xp) (ha : 0 ≤ amount) :
    (gainXP c amount).xp = (c.xp + amount) % 100 ∧
    (gainXP c amount).level = c.level + (c.xp + amount) / 100 ∧
    (gainXP c amount).maxHP = c.maxHP + 6 * ((c.xp + amount) / 100) ∧
    (gainXP c amount).maxMana = c.maxMana + 4 * ((c.xp + amount) / 100) ∧
    (100 ≤ c.xp + amount →
      (gainXP c amount).hp = (gainXP c amount).maxHP ∧
      (gainXP c amount).mana = (gainXP c amount).maxMana) ∧
    (c.xp + amount < 100 →
      (gainXP c amount).hp = c.hp ∧ (gainXP c amount).mana = c.mana) := by
  rw [gainXP_closed c amount hx ha]
  simp only [applyLevels]
  refine ⟨by omega, by omega, by omega, by omega, ?_, ?_⟩
  · intro h
    have hk : (c.xp + amount).toNat / 100 ≠ 0 := by omega
    simp only [if_neg hk]
    simp
  · intro h
    have hk : (c.xp + amount).toNat / 100 = 0 := by omega
    simp only [if_pos hk]
    simp

/-- Witness for C5 at a concrete input: 40 existing experience plus a
260-point reward yields three level-ups. -/
theorem gainXP_levels_spec_witness :
    (0 : Int) ≤ (40 : Int) ∧ (0 : Int) ≤ (260 : Int) ∧
    ((gainXP { name := "Bob", maxHP := 30, hp := 12, maxMana := 20, mana := 3,
               level := 1, xp := 40, betPts := 0, inventory := [], inventoryMax := 10,
               unlocked := true, hasNoteSpell := false, specialUsed := false,
               battleBoost := 0, ignoreGuard := false, dodgeNext := false,
               shieldHP := 0 } 260).level = 4 ∧
     (gainXP { name := "Bob", maxHP := 30, hp := 12, maxMana := 20, mana := 3,
               level := 1, xp := 40, betPts := 0, inventory := [], inventoryMax := 10,
               unlocked := true, hasNoteSpell := false, specialUsed := false,
               battleBoost := 0, ignoreGuard := false, dodgeNext := false,
               shieldHP := 0 } 260).xp = 0) := by
  refine ⟨by decide, by decide, ?_⟩
  have h := gainXP_levels_spec
    { name := "Bob", maxHP := 30, hp := 12, maxMana := 20, mana := 3,
      level := 1, xp := 40, betPts := 0, inventory := [], inventoryMax := 10,
      unlocked := true, hasNoteSpell := false, specialUsed := false,
      battleBoost := 0, ignoreGuard := false, dodgeNext := false,
      shieldHP := 0 } 260 (by decide) (by decide)
  refine ⟨?_, ?_⟩
  · rw [h.2.1]; decide
  · rw [h.1]; decide

/-- C9: shield absorption is exactly the max-formula of the
specification: with a non-negative shield pool and non-negative incoming
damage, the damage applied to health is `max 0 (dmg − shield)`, the
remaining pool is `max 0 (shield − dmg)`, and the applied damage is never
negative and never exceeds the incoming damage. -/
theorem absorbShieldDamage_spec (c : Character) (d : Int)
    (hs : 0 ≤ c.shieldHP) (hd : 0 ≤ d) :
    (absorbShieldDamage c d).1 = max 0 (d - c.shieldHP) ∧
    (absorbShieldDamage c d).2.shieldHP = max 0 (c.shieldHP - d) ∧
    0 ≤ (absorbShieldDamage c d).1 ∧ (absorbShieldDamage c d).1 ≤ d := by
  unfold absorbShieldDamage
  split_ifs with h1 h2 <;> dsimp only <;>
    refine ⟨by omega, by omega, by omega, by omega⟩

/-- Witness for C9 at a concrete input: 12 shield points against 30
incoming damage apply 18 to health and empty the pool. -/
theorem absorbShieldDamage_spec_witness :
    (0 : Int) ≤ (12 : Int) ∧ (0 : Int) ≤ (30 : Int) ∧
    (absorbShieldDamage { name := "Bob", maxHP := 30, hp := 30, maxMana := 20,
                          mana := 20, level := 1, xp := 0, betPts := 0, inventory := [],
                          inventoryMax := 10, unlocked := true, hasNoteSpell := false,
                          specialUsed := false, battleBoost := 0, ignoreGuard := false,
                          dodgeNext := false, shieldHP := 12 } 30).1 = max 0 (30 - 12) := by
  refine ⟨by decide, by decide, ?_⟩
  exact (absorbShieldDamage_spec
    { name := "Bob", maxHP := 30, hp := 30, maxMana := 20,
      mana := 20, level := 1, xp := 0, betPts := 0, inventory := [],
      inventoryMax := 10, unlocked := true, hasNoteSpell := false,
      specialUsed := false, battleBoost := 0, ignoreGuard := false,
      dodgeNext := false, shieldHP := 12 } 30 (by decide) (by decide)).1

theorem enemyStrike_critTimer (e : Enemy) :
    (enemyStrike e).2.critTimer = if e.critTimer ≤ 1 then 3 else e.critTimer - 1 := by
  unfold enemyStrike
  by_cases hw : 0 < e.weakenTurns
  · simp only [if_pos hw]
    split_ifs <;> rfl
  · simp only [if_neg hw]
    split_ifs <;> rfl

theorem enemyStrike_parts (e : Enemy) :
    (enemyStrike e).1 =
      (if 0 < e.weakenTurns then max 1 (weakenedDamage e.attack) else e.attack) *
        (if e.critTimer ≤ 1 then 2 else 1) ∧
    (enemyStrike e).2.weakenTurns =
      (if 0 < e.weakenTurns then e.weakenTurns - 1 else e.weakenTurns) ∧
    (enemyStrike e).2.hp = e.hp := by
  unfold enemyStrike
  by_cases hw : 0 < e.weakenTurns
  · simp only [if_pos hw]
    split_ifs <;> dsimp only <;> (repeat' apply And.intro) <;>
      first
      | rfl
      | omega
  · simp only [if_neg hw]
    split_ifs <;> dsimp only <;> (repeat' apply And.intro) <;>
      first
      | rfl
      | omega

theorem strikes_critTimer_cycle (e : Enemy) (h3 : e.critTimer = 3) :
    ∀ n : Nat, (strikes e n).critTimer = 3 - ((n % 3 : Nat) : Int) := by
  intro n
  induction n with
  | zero => simpa [strikes] using h3
  | succ n ih =>
      have hmod : n % 3 = 0 ∨ n % 3 = 1 ∨ n % 3 = 2 := by omega
      show (enemyStrike (strikes e n)).2.critTimer = _
      rw [enemyStrike_critTimer]
      rcases hmod with hm | hm | hm <;> simp only [hm] at ih ⊢ <;>
        split_ifs <;> omega

/-- C7: the enemy action computation applies the weaken debuff first —
when weaken-turns-remaining is positive the base attack is replaced by
its 0.6-multiple rounded to the nearest integer (`weakenedDamage`, the
integer within distance 2/5 of `0.6·attack`), floored at 1, and the
weaken counter is decremented — and only then the critical countdown: at
1 or below the damage is doubled and the countdown reset to exactly 3,
otherwise the countdown decrements by one. Consequently, starting from a
fresh countdown of 3, consecutive (non-silenced) enemy strikes cycle the
countdown 3, 2, 1, critical, 3, …: before the n-th strike the countdown
is `3 − (n % 3)` and the strike is critical exactly when `n % 3 = 2`
(that is, on every third strike). -/
theorem enemyStrike_crit_spec :
    (∀ d : Int, 0 ≤ d →
      -2 ≤ 5 * weakenedDamage d - 3 * d ∧ 5 * weakenedDamage d - 3 * d ≤ 2) ∧
    (∀ e : Enemy,
      (enemyStrike e).1 =
        (if 0 < e.weakenTurns then max 1 (weakenedDamage e.attack) else e.attack) *
          (if e.critTimer ≤ 1 then 2 else 1) ∧
      (enemyStrike e).2.critTimer = (if e.critTimer ≤ 1 then 3 else e.critTimer - 1) ∧
      (enemyStrike e).2.weakenTurns =
        (if 0 < e.weakenTurns then e.weakenTurns - 1 else e.weakenTurns) ∧
      (enemyStrike e).2.hp = e.hp) ∧
    (∀ (e : Enemy) (n : Nat), e.critTimer = 3 →
      (strikes e n).critTimer = 3 - ((n % 3 : Nat) : Int) ∧
      ((strikes e n).critTimer ≤ 1 ↔ n % 3 = 2)) := by
  refine ⟨?_, ?_, ?_⟩
  · intro d hd
    unfold weakenedDamage
    split_ifs <;> omega
  · intro e
    exact ⟨(enemyStrike_parts e).1, enemyStrike_critTimer e,
           (enemyStrike_parts e).2.1, (enemyStrike_parts e).2.2⟩
  · intro e n h3
    have h := strikes_critTimer_cycle e h3 n
    refine ⟨h, ?_⟩
    rw [h]
    omega

/-- Witness for C7 at concrete inputs: a weakened enemy with attack 7 and
countdown 1 deals `2·max(1, round(4.2)) = 8` damage, and from a fresh
countdown the third strike is critical. -/
theorem enemyStrike_crit_spec_witness :
    (0 : Int) ≤ 7 ∧
    (enemyStrike { name := "E", etype := "hater", maxHP := 20, hp := 20, attack := 7,
                   critTimer := 1, style := "pop", poisonTurns := 0, poisonDmg := 0,
                   weakenTurns := 1, silenceTurns := 0 }).1 = 8 ∧
    ({ name := "E", etype := "hater", maxHP := 20, hp := 20, attack := 7,
       critTimer := 3, style := "pop", poisonTurns := 0, poisonDmg := 0,
       weakenTurns := 0, silenceTurns := 0 } : Enemy).critTimer = 3 ∧
    (strikes { name := "E", etype := "hater", maxHP := 20, hp := 20, attack := 7,
               critTimer := 3, style := "pop", poisonTurns := 0, poisonDmg := 0,
               weakenTurns := 0, silenceTurns := 0 } 2).critTimer ≤ 1 := by
  refine ⟨by decide, ?_, by decide, ?_⟩
  · have h := (enemyStrike_crit_spec.2.1
      { name := "E", etype := "hater", maxHP := 20, hp := 20, attack := 7,
        critTimer := 1, style := "pop", poisonTurns := 0, poisonDmg := 0,
        weakenTurns := 1, silenceTurns := 0 }).1
    rw [h]
    decide
  · have h := (enemyStrike_crit_spec.2.2
      { name := "E", etype := "hater", maxHP := 20, hp := 20, attack := 7,
        critTimer := 3, style := "pop", poisonTurns := 0, poisonDmg := 0,
        weakenTurns := 0, silenceTurns := 0 } 2 (by decide)).2
    exact h.mpr (by decide)

theorem soloInit_go_spec (opts : battleOptions) (st : SoloState) (bet : Int)
    (st1 : SoloState) (hgo : soloInit opts st = SoloInitRes.go bet st1) :
    (bet = 1 ∨ bet = 2 ∨ bet = 3 ∨ bet = 4) ∧
    st1.enemy.hp = st.enemy.maxHP * bet ∧
    st1.enemy.maxHP = st.enemy.maxHP * bet ∧
    st1.enemy.attack = scaleAttack st.enemy.attack bet ∧
    st1.player.betPts = st.player.betPts := by
  unfold soloInit at hgo
  dsimp only at hgo
  split at hgo
  next => simp at hgo
  next bet' st' heq =>
    rw [SoloInitRes.go.injEq] at hgo
    obtain ⟨hb, hs⟩ := hgo
    subst hb
    subst hs
    split at heq
    · split at heq
      · simp at heq
      · split at heq <;>
          · rw [SoloInitRes.go.injEq] at heq
            obtain ⟨hb2, hs2⟩ := heq
            subst hb2
            subst hs2
            refine ⟨?_, ?_, ?_, ?_, ?_⟩ <;> (try split_ifs) <;>
              simp [resetCombatFlags]
    · rw [SoloInitRes.go.injEq] at heq
      obtain ⟨hb2, hs2⟩ := heq
      subst hb2
      subst hs2
      refine ⟨?_, ?_, ?_, ?_, ?_⟩ <;> (try split_ifs) <;>
        simp [resetCombatFlags]

theorem scaleAttack_floor (a b : Int) (ha : 0 ≤ a) (hb : 0 ≤ b) :
    scaleAttack a b * scaleAttack a b ≤ b * (a * a) ∧
    b * (a * a) < (scaleAttack a b + 1) * (scaleAttack a b + 1) := by
  unfold scaleAttack
  have h := isqrt_spec (b.toNat * (a.toNat * a.toNat))
  have hn : ((b.toNat * (a.toNat * a.toNat) : Nat) : Int) = b * (a * a) := by
    push_cast [Int.toNat_of_nonneg ha, Int.toNat_of_nonneg hb]
    ring
  constructor
  · rw [← hn]
    exact_mod_cast h.1
  · rw [← hn]
    exact_mod_cast h.2

theorem scaleAttack_four (a : Int) (ha : 0 ≤ a) : scaleAttack a 4 = 2 * a := by
  unfold scaleAttack
  have h4 : ((4 : Int)).toNat = 4 := by decide
  have hu : isqrt (4 * (a.toNat * a.toNat)) = 2 * a.toNat := by
    apply isqrt_unique
    · exact le_of_eq (by ring)
    · nlinarith [sq_nonneg a.toNat]
  rw [h4, hu]
  push_cast [Int.toNat_of_nonneg ha]
  ring

theorem soloVictory_rewards (opts : battleOptions) (bet : Int) (st2 : SoloState) :
    (0 < opts.rewardXP * bet →
      (soloVictory opts bet st2).player.level
        = (gainXP st2.player (opts.rewardXP * bet)).level ∧
      (soloVictory opts bet st2).player.xp
        = (gainXP st2.player (opts.rewardXP * bet)).xp) ∧
    (0 < opts.rewardGold * bet →
      (soloVictory opts bet st2).gold = st2.gold + opts.rewardGold * bet) := by
  unfold soloVictory
  dsimp only
  constructor
  · intro h
    simp only [if_pos h]
    try ((try split_ifs) <;> simp)
  · intro h
    simp only [if_pos h]
    try ((try split_ifs) <;> simp)

/-- C1 counterexample: with wagering enabled, 5 wager points and the bet
input `"2"`, the encounter entry chooses tier 2 and sets the enemy's
attack to `trunc(10·√2) = 14`, while the claim's formula
`attack · round(√2) = 10 · 1` predicts 10. The attack is therefore not
multiplied by `round(√b)`. -/
theorem c1_attack_roundsqrt_counterexample :
    soloChosenBet betOpts c1State = 2 ∧
    (soloInitState betOpts c1State).enemy.attack = 14 ∧
    c1State.enemy.attack * ((roundSqrtSpec 2 : Nat) : Int) = 10 ∧
    (soloInitState betOpts c1State).enemy.attack
      ≠ c1State.enemy.attack * ((roundSqrtSpec 2 : Nat) : Int) := by
  refine ⟨by decide, by decide, by decide, by decide⟩

/-- C1 (amended): at solo encounter entry with chosen wager tier `b` (the
code admits `b ∈ {1,2,3,4}`), the enemy's current and maximum health are
each set to exactly `b` times the template maximum, and the enemy's
attack becomes the integer truncation of `attack·√b` (characterised
below as the floor of the real square root: its square is the largest not
exceeding `b·attack²`; for `b = 4` this is exactly `2·attack`) — not
`attack·round(√b)`. On victory the player gains exactly
`rewardXP · b` experience (fed to `gainXP`) and exactly `rewardGold · b`
currency. -/
theorem soloInit_wager_scaling_amended :
    (∀ (opts : battleOptions) (st : SoloState) (bet : Int) (st1 : SoloState),
      soloInit opts st = SoloInitRes.go bet st1 →
      (bet = 1 ∨ bet = 2 ∨ bet = 3 ∨ bet = 4) ∧
      st1.enemy.hp = st.enemy.maxHP * bet ∧
      st1.enemy.maxHP = st.enemy.maxHP * bet ∧
      st1.enemy.attack = scaleAttack st.enemy.attack bet ∧
      (0 ≤ st.enemy.attack →
        st1.enemy.attack * st1.enemy.attack
            ≤ bet * (st.enemy.attack * st.enemy.attack) ∧
        bet * (st.enemy.attack * st.enemy.attack)
            < (st1.enemy.attack + 1) * (st1.enemy.attack + 1)) ∧
      (0 ≤ st.enemy.attack → bet = 4 →
        st1.enemy.attack = 2 * st.enemy.attack)) ∧
    (∀ (opts : battleOptions) (bet : Int) (st2 : SoloState),
      (0 < opts.rewardXP * bet →
        (soloVictory opts bet st2).player.level
          = (gainXP st2.player (opts.rewardXP * bet)).level ∧
        (soloVictory opts bet st2).player.xp
          = (gainXP st2.player (opts.rewardXP * bet)).xp) ∧
      (0 < opts.rewardGold * bet →
        (soloVictory opts bet st2).gold = st2.gold + opts.rewardGold * bet)) := by
  constructor
  · intro opts st bet st1 hgo
    obtain ⟨hmem, hhp, hmax, hatk, hbp⟩ := soloInit_go_spec opts st bet st1 hgo
    have hbnn : (0 : Int) ≤ bet := by rcases hmem with h | h | h | h <;> omega
    refine ⟨hmem, hhp, hmax, hatk, ?_, ?_⟩
    · intro ha
      rw [hatk]
      exact scaleAttack_floor st.enemy.attack bet ha hbnn
    · intro ha h4
      rw [hatk, h4]
      exact scaleAttack_four st.enemy.attack ha
  · intro opts bet st2
    exact soloVictory_rewards opts bet st2

/-- Witness for the amended C1 at a concrete input: betting tier 2
against the template enemy doubles its health pool to 14 and truncates
its attack to 14. -/
theorem soloInit_wager_scaling_amended_witness :
    soloInit betOpts c1State
        = SoloInitRes.go 2 (soloInitState betOpts c1State) ∧
    (soloInitState betOpts c1State).enemy.hp = 14 ∧
    (soloInitState betOpts c1State).enemy.maxHP = 14 ∧
    (soloInitState betOpts c1State).enemy.attack = 14 ∧
    0 < betOpts.rewardGold * 2 ∧
    (soloVictory betOpts 2 (soloInitState betOpts c1State)).gold
      = (soloInitState betOpts c1State).gold + betOpts.rewardGold * 2 := by
  refine ⟨by decide, ?_, ?_, ?_, by decide, ?_⟩
  · have h := soloInit_wager_scaling_amended.1 betOpts c1State 2
      (soloInitState betOpts c1State) (by decide)
    rw [h.2.1]
    decide
  · have h := soloInit_wager_scaling_amended.1 betOpts c1State 2
      (soloInitState betOpts c1State) (by decide)
    rw [h.2.2.1]
    decide
  · have h := soloInit_wager_scaling_amended.1 betOpts c1State 2
      (soloInitState betOpts c1State) (by decide)
    rw [h.2.2.2.1]
    decide
  · exact (soloInit_wager_scaling_amended.2 betOpts 2
      (soloInitState betOpts c1State)).2 (by decide)

theorem performSpecial_unaffordable (ctx : SpecCtx) (nm choice : String) (cost : Int)
    (rest : List String) (hm : ctx.menuReq = false) (hname : ctx.caster.name = nm)
    (hc : specialBranchCost nm choice = some cost) (hmana : ctx.caster.mana < cost)
    (hin : nm = "Hatsune Miku" ∨ ctx.inputs = choice :: rest) :
    (performSpecial ctx).1 = false ∧ (performSpecial ctx).2.1 = false ∧
    (performSpecial ctx).2.2.party = ctx.party ∧
    (performSpecial ctx).2.2.enemies = ctx.enemies ∧
    (performSpecial ctx).2.2.rng = ctx.rng := by
  unfold specialBranchCost at hc
  split at hc
  -- Hatsune Miku, any choice: cost 15, no sub-menu read
  · rw [Option.some.injEq] at hc
    subst hc
    unfold performSpecial
    simp only [hname]
    by_cases hn : ctx.caster.hasNoteSpell
    · simp only [hn]
      rcases hE : ctx.enemyAt with _ | e <;> simp only [hE]
      · simp
      · simp only [SpecCtx.caster] at hmana ⊢
        simp only [if_pos hmana]
        simp
    · simp [hn]
  -- Kaaris "2": cost 10
  · rw [Option.some.injEq] at hc
    subst hc
    rcases hin with h | hin
    · exact absurd h (by decide)
    unfold performSpecial
    simp only [hname]
    simp only [hin, hm, readInput]
    simp only [show isMenuInput "2" = false from by decide, Bool.or_false]
    simp only [Bool.false_eq_true, if_false]
    simp only [SpecCtx.caster] at hmana ⊢
    simp only [if_pos hmana]
    simp
  -- Kaaris "3": cost 18
  · rw [Option.some.injEq] at hc
    subst hc
    rcases hin with h | hin
    · exact absurd h (by decide)
    unfold performSpecial
    simp only [hname]
    simp only [hin, hm, readInput]
    simp only [show isMenuInput "3" = false from by decide, Bool.or_false]
    simp only [Bool.false_eq_true, if_false]
    simp only [SpecCtx.caster] at hmana ⊢
    simp only [if_pos hmana]
    simp
  -- Macron "1": cost 12
  · rw [Option.some.injEq] at hc
    subst hc
    rcases hin with h | hin
    · exact absurd h (by decide)
    unfold performSpecial
    simp only [hname]
    rcases hE : ctx.enemyAt with _ | e <;> simp only [hE]
    · simp
    · simp only [hin, hm, readInput]
      simp only [show isMenuInput "1" = false from by decide, Bool.or_false]
      simp only [Bool.false_eq_true, if_false]
      simp only [SpecCtx.caster] at hmana ⊢
      simp only [if_pos hmana]
      simp
  -- Macron "2": cost 14
  · rw [Option.some.injEq] at hc
    subst hc
    rcases hin with h | hin
    · exact absurd h (by decide)
    unfold performSpecial
    simp only [hname]
    rcases hE : ctx.enemyAt with _ | e <;> simp only [hE]
    · simp
    · simp only [hin, hm, readInput]
      simp only [show isMenuInput "2" = false from by decide, Bool.or_false]
      simp only [Bool.false_eq_true, if_false]
      simp only [SpecCtx.caster] at hmana ⊢
      simp only [if_pos hmana]
      simp
  -- Michael Jackson "1": cost 8
  · rw [Option.some.injEq] at hc
    subst hc
    rcases hin with h | hin
    · exact absurd h (by decide)
    unfold performSpecial
    simp only [hname]
    simp only [hin, hm, readInput]
    simp only [show isMenuInput "1" = false from by decide, Bool.or_false]
    simp only [Bool.false_eq_true, if_false]
    simp only [SpecCtx.enemyAt]
    rcases hE : ctx.eIdx with _ | j <;> simp only [hE]
    · simp
    · rcases hG : ctx.enemies.get? j with _ | e <;> simp only [hG]
      · simp
      · simp only [SpecCtx.caster] at hmana ⊢
        simp only [if_pos hmana]
        simp
  -- Michael Jackson "2": cost 12
  · rw [Option.some.injEq] at hc
    subst hc
    rcases hin with h | hin
    · exact absurd h (by decide)
    unfold performSpecial
    simp only [hname]
    simp only [hin, hm, readInput]
    simp only [show isMenuInput "2" = false from by decide, Bool.or_false]
    simp only [Bool.false_eq_true, if_false]
    simp only [SpecCtx.caster] at hmana ⊢
    simp only [if_pos hmana]
    simp
  -- Michael Jackson "3": cost 18
  · rw [Option.some.injEq] at hc
    subst hc
    rcases hin with h | hin
    · exact absurd h (by decide)
    unfold performSpecial
    simp only [hname]
    simp only [hin, hm, readInput]
    simp only [show isMenuInput "3" = false from by decide, Bool.or_false]
    simp only [Bool.false_eq_true, if_false]
    simp only [SpecCtx.caster] at hmana ⊢
    simp only [if_pos hmana]
    simp
  -- default: no branch
  · simp at hc

theorem soloIter_special_refused (opts : battleOptions) (st : SoloState)
    (action : String) (rest : List String)
    (hm : st.menuReq = false)
    (hact : (action = "3" ∧ ¬ st.player.name = "Hatsune Miku") ∨
            (action = "4" ∧ st.player.name = "Hatsune Miku"))
    (hin : st.inputs = action :: rest)
    (hsu : st.player.specialUsed = false)
    (hused : ((soloSpecial { st with inputs := rest, menuReq := false }).1 &&
              (soloSpecial { st with inputs := rest, menuReq := false }).2.1) = false)
    (hmr : (soloSpecial { st with inputs := rest, menuReq := false }).2.2.menuReq
             = false)
    (hE : 0 < (soloSpecial { st with inputs := rest, menuReq := false }).2.2.enemy.hp) :
    soloIter opts st =
      (SoloEv.cont,
        { (soloSpecial { st with inputs := rest, menuReq := false }).2.2 with
            turn := (soloSpecial
              { st with inputs := rest, menuReq := false }).2.2.turn + 1 }) := by
  rcases hact with ⟨ha, hn⟩ | ⟨ha, hn⟩ <;> subst ha
  · unfold soloIter soloStep
    simp only [hin, readInput, show isMenuInput "3" = false from by decide,
               Bool.or_false, hm, Bool.false_eq_true, if_false, hn, hsu]
    simp only [hmr, Bool.false_eq_true, if_false, if_true, hused]
    rw [if_neg (show ¬ (soloSpecial
      { st with inputs := rest, menuReq := false }).2.2.enemy.hp ≤ 0 by omega)]
  · unfold soloIter soloStep
    simp only [hin, readInput, show isMenuInput "4" = false from by decide,
               Bool.or_false, hm, Bool.false_eq_true, if_false, hn, hsu]
    simp only [hmr, Bool.false_eq_true, if_false, if_true, hused]
    rw [if_neg (show ¬ (soloSpecial
      { st with inputs := rest, menuReq := false }).2.2.enemy.hp ≤ 0 by omega)]

theorem performSpecial_macron_silence (ctx : SpecCtx) (j : Nat) (e : Enemy)
    (rest : List String)
    (hm : ctx.menuReq = false)
    (hname : ctx.caster.name = "Emmanuel Macron")
    (hj : ctx.eIdx = some j)
    (he : ctx.enemies.get? j = some e)
    (hin : ctx.inputs = "2" :: rest)
    (hmana : 14 ≤ ctx.caster.mana) :
    performSpecial ctx =
      (true, false,
        (SpecCtx.setCaster { ctx with inputs := rest, menuReq := false }
            { ctx.caster with mana := ctx.caster.mana - 14, specialUsed := true
              }).setEnemyAt { e with silenceTurns := 1 }) := by
  unfold performSpecial
  simp only [hname]
  rw [show ctx.enemyAt = some e from by simp only [SpecCtx.enemyAt, hj]; exact he]
  simp only [hin, hm, readInput, show isMenuInput "2" = false from by decide,
             Bool.or_false, Bool.false_eq_true, if_false]
  rw [if_neg (show ¬ (SpecCtx.caster
      { ctx with inputs := rest, menuReq := false }).mana < 14 from by
      simp only [SpecCtx.caster]
      simp only [SpecCtx.caster] at hmana
      omega)]
  have hname2 : ((ctx.party.get? ctx.cIdx).getD default).name = "Emmanuel Macron" := by
    simpa only [SpecCtx.caster, List.getD] using hname
  simp only [SpecCtx.caster, SpecCtx.setCaster, SpecCtx.setEnemyAt, List.getD, hj,
             hname2]

theorem partyAction_special_reprompt (opts : battleOptions) (i : Nat)
    (st : PartyState) (j : Nat)
    (hn : ¬ (st.party.getD i default).name = "Hatsune Miku")
    (hsu : (st.party.getD i default).specialUsed = false)
    (hfa : firstAliveEnemy st.enemies = some j)
    (hmr : (performSpecial ⟨st.party, i, st.enemies, some j, st.inputs, st.rng,
              st.menuReq⟩).2.2.menuReq = false)
    (hused : ((performSpecial ⟨st.party, i, st.enemies, some j, st.inputs, st.rng,
                st.menuReq⟩).1 &&
              (performSpecial ⟨st.party, i, st.enemies, some j, st.inputs, st.rng,
                st.menuReq⟩).2.1) = false) :
    partyAction opts i "3" st =
      SwRes.retry
        { st with
            party := (performSpecial ⟨st.party, i, st.enemies, some j, st.inputs,
                        st.rng, st.menuReq⟩).2.2.party,
            enemies := (performSpecial ⟨st.party, i, st.enemies, some j, st.inputs,
                        st.rng, st.menuReq⟩).2.2.enemies,
            inputs := (performSpecial ⟨st.party, i, st.enemies, some j, st.inputs,
                        st.rng, st.menuReq⟩).2.2.inputs,
            rng := (performSpecial ⟨st.party, i, st.enemies, some j, st.inputs,
                        st.rng, st.menuReq⟩).2.2.rng,
            menuReq := (performSpecial ⟨st.party, i, st.enemies, some j, st.inputs,
                        st.rng, st.menuReq⟩).2.2.menuReq } ∧
    ({ st with
        party := (performSpecial ⟨st.party, i, st.enemies, some j, st.inputs,
                    st.rng, st.menuReq⟩).2.2.party,
        enemies := (performSpecial ⟨st.party, i, st.enemies, some j, st.inputs,
                    st.rng, st.menuReq⟩).2.2.enemies,
        inputs := (performSpecial ⟨st.party, i, st.enemies, some j, st.inputs,
                    st.rng, st.menuReq⟩).2.2.inputs,
        rng := (performSpecial ⟨st.party, i, st.enemies, some j, st.inputs,
                    st.rng, st.menuReq⟩).2.2.rng,
        menuReq := (performSpecial ⟨st.party, i, st.enemies, some j, st.inputs,
                    st.rng, st.menuReq⟩).2.2.menuReq } : PartyState).round
      = st.round := by
  refine ⟨?_, rfl⟩
  unfold partyAction
  simp only [hn, hsu, hfa, if_false, Bool.false_eq_true]
  simp only [hmr, Bool.false_eq_true, if_false, hused]

theorem soloIter_macron_silence (opts : battleOptions) (st : SoloState)
    (rest : List String)
    (hm : st.menuReq = false)
    (hname : st.player.name = "Emmanuel Macron")
    (hsu : st.player.specialUsed = false)
    (hin : st.inputs = "3" :: "2" :: rest)
    (hmana : 14 ≤ st.player.mana)
    (hE : 0 < st.enemy.hp) :
    (soloIter opts st).1 = SoloEv.cont ∧
    (soloIter opts st).2.turn = st.turn + 1 ∧
    (soloIter opts st).2.player.mana = st.player.mana - 14 ∧
    (soloIter opts st).2.player.specialUsed = true ∧
    (soloIter opts st).2.enemy.silenceTurns = 1 ∧
    (soloIter opts st).2.enemy.hp = st.enemy.hp ∧
    (soloIter opts st).2.enemy.critTimer = st.enemy.critTimer ∧
    (soloIter opts st).2.player.hp = st.player.hp := by
  have hps := performSpecial_macron_silence
    ⟨[st.player], 0, [st.enemy], some 0, "2" :: rest, st.rng, false⟩ 0 st.enemy rest
    rfl (by simpa [SpecCtx.caster] using hname) rfl rfl rfl
    (by simpa [SpecCtx.caster] using hmana)
  have hsp : soloSpecial { st with inputs := "2" :: rest, menuReq := false }
      = (true, false,
          { st with
              player := { st.player with
                          mana := st.player.mana - 14,
                          specialUsed := true },
              enemy := { st.enemy with silenceTurns := 1 },
              inputs := rest, menuReq := false }) := by
    unfold soloSpecial
    rw [hps]
    simp [SpecCtx.caster, SpecCtx.setCaster, SpecCtx.setEnemyAt, SpecCtx.withRng,
          List.getD, List.set]
  have hw := soloIter_special_refused opts st "3" ("2" :: rest) hm
    (Or.inl ⟨rfl, by rw [hname]; decide⟩) hin hsu
    (by rw [hsp]; rfl)
    (by rw [hsp])
    (by rw [hsp]; simpa using hE)
  rw [hw, hsp]
  simp


/-- C6: selecting any special-ability sub-menu branch whose resource cost
exceeds the caster's current mana leaves the state unchanged — the
resolver returns `(used = false, consumeTurn = false)` with the party,
the enemies and the random stream untouched (so no mana is spent and the
special-used flag stays false) — and in the solo round loop a refused
special leaves the player and enemy untouched, runs no enemy action
phase, and re-prompts (outcome `cont`). -/
theorem special_unaffordable_spec :
    (∀ (ctx : SpecCtx) (nm choice : String) (cost : Int) (rest : List String),
      ctx.menuReq = false → ctx.caster.name = nm →
      specialBranchCost nm choice = some cost → ctx.caster.mana < cost →
      (nm = "Hatsune Miku" ∨ ctx.inputs = choice :: rest) →
      (performSpecial ctx).1 = false ∧ (performSpecial ctx).2.1 = false ∧
      (performSpecial ctx).2.2.party = ctx.party ∧
      (performSpecial ctx).2.2.enemies = ctx.enemies ∧
      (performSpecial ctx).2.2.rng = ctx.rng) ∧
    (∀ (opts : battleOptions) (st : SoloState) (action : String)
        (rest : List String),
      st.menuReq = false →
      ((action = "3" ∧ ¬ st.player.name = "Hatsune Miku") ∨
       (action = "4" ∧ st.player.name = "Hatsune Miku")) →
      st.inputs = action :: rest →
      st.player.specialUsed = false →
      ((soloSpecial { st with inputs := rest, menuReq := false }).1 &&
       (soloSpecial { st with inputs := rest, menuReq := false }).2.1) = false →
      (soloSpecial { st with inputs := rest, menuReq := false }).2.2.menuReq
        = false →
      0 < (soloSpecial { st with inputs := rest, menuReq := false }).2.2.enemy.hp →
      soloIter opts st =
        (SoloEv.cont,
          { (soloSpecial { st with inputs := rest, menuReq := false }).2.2 with
              turn := (soloSpecial
                { st with inputs := rest, menuReq := false }).2.2.turn + 1 })) :=
  ⟨fun ctx nm choice cost rest hm hname hc hmana hin =>
      performSpecial_unaffordable ctx nm choice cost rest hm hname hc hmana hin,
   fun opts st action rest hm hact hin hsu hused hmr hE =>
      soloIter_special_refused opts st action rest hm hact hin hsu hused hmr hE⟩

/-- Witness for C6 at a concrete input: Macron with 5 mana picking his
12-mana branch — the resolver refuses, the roster is untouched, and in
the solo loop the outcome is `cont` (a re-prompt). -/
theorem special_unaffordable_spec_witness :
    c6Ctx.menuReq = false ∧ c6Ctx.caster.mana < 12 ∧
    (performSpecial c6Ctx).1 = false ∧
    (performSpecial c6Ctx).2.2.party = c6Ctx.party ∧
    (soloIter plainOpts c6Solo).1 = SoloEv.cont := by
  have hA := special_unaffordable_spec.1 c6Ctx "Emmanuel Macron" "1" 12 []
    (by decide) (by decide) (by decide) (by decide) (Or.inr (by decide))
  have hB := special_unaffordable_spec.2 plainOpts c6Solo "3" ["1"]
    (by decide) (Or.inl ⟨rfl, by decide⟩) (by decide) (by decide)
    (by decide) (by decide) (by decide)
  refine ⟨by decide, by decide, hA.1, hA.2.2.1, ?_⟩
  rw [hB]

/-- C10 counterexample: Macron's silencing special in the solo loop does
skip the enemy action phase (enemy health and critical countdown are
unchanged and the player takes no damage), deducts 14 mana, sets the
special-used flag and silence-turns — but the loop's turn counter
nevertheless advances by one, so the round counter does not stay put as
the claim states. -/
theorem c10_turn_counter_counterexample :
    (soloIter plainOpts c10Solo).1 = SoloEv.cont ∧
    (soloIter plainOpts c10Solo).2.player.mana = c10Solo.player.mana - 14 ∧
    (soloIter plainOpts c10Solo).2.player.specialUsed = true ∧
    (soloIter plainOpts c10Solo).2.enemy.silenceTurns = 1 ∧
    (soloIter plainOpts c10Solo).2.enemy.hp = c10Solo.enemy.hp ∧
    (soloIter plainOpts c10Solo).2.enemy.critTimer = c10Solo.enemy.critTimer ∧
    (soloIter plainOpts c10Solo).2.player.hp = c10Solo.player.hp ∧
    (soloIter plainOpts c10Solo).2.turn = c10Solo.turn + 1 ∧
    c10Solo.turn + 1 ≠ c10Solo.turn := by
  refine ⟨by decide, by decide, by decide, by decide, by decide, by decide,
          by decide, by decide, by decide⟩

/-- C10 (amended): a successful cast of the enemy-silencing special
deducts its 14-mana cost, sets the caster's special-used flag and the
target's silence-turns to 1, and returns a do-not-consume-turn result; in
the solo loop no enemy action phase runs (enemy health and critical
countdown unchanged, player health unchanged) and the player acts again,
though the displayed turn counter increments; in the party loop the
acting character is re-prompted within the same round and the round
counter does not advance. -/
theorem macron_silence_spec :
    (∀ (ctx : SpecCtx) (j : Nat) (e : Enemy) (rest : List String),
      ctx.menuReq = false → ctx.caster.name = "Emmanuel Macron" →
      ctx.eIdx = some j → ctx.enemies.get? j = some e →
      ctx.inputs = "2" :: rest → 14 ≤ ctx.caster.mana →
      performSpecial ctx =
        (true, false,
          (SpecCtx.setCaster { ctx with inputs := rest, menuReq := false }
              { ctx.caster with mana := ctx.caster.mana - 14, specialUsed := true
                }).setEnemyAt { e with silenceTurns := 1 })) ∧
    (∀ (opts : battleOptions) (st : SoloState) (rest : List String),
      st.menuReq = false → st.player.name = "Emmanuel Macron" →
      st.player.specialUsed = false → st.inputs = "3" :: "2" :: rest →
      14 ≤ st.player.mana → 0 < st.enemy.hp →
      (soloIter opts st).1 = SoloEv.cont ∧
      (soloIter opts st).2.turn = st.turn + 1 ∧
      (soloIter opts st).2.player.mana = st.player.mana - 14 ∧
      (soloIter opts st).2.player.specialUsed = true ∧
      (soloIter opts st).2.enemy.silenceTurns = 1 ∧
      (soloIter opts st).2.enemy.hp = st.enemy.hp ∧
      (soloIter opts st).2.enemy.critTimer = st.enemy.critTimer ∧
      (soloIter opts st).2.player.hp = st.player.hp) ∧
    (∀ (opts : battleOptions) (i : Nat) (st : PartyState) (j : Nat),
      ¬ (st.party.getD i default).name = "Hatsune Miku" →
      (st.party.getD i default).specialUsed = false →
      firstAliveEnemy st.enemies = some j →
      (performSpecial ⟨st.party, i, st.enemies, some j, st.inputs, st.rng,
         st.menuReq⟩).2.2.menuReq = false →
      ((performSpecial ⟨st.party, i, st.enemies, some j, st.inputs, st.rng,
          st.menuReq⟩).1 &&
       (performSpecial ⟨st.party, i, st.enemies, some j, st.inputs, st.rng,
          st.menuReq⟩).2.1) = false →
      partyAction opts i "3" st =
        SwRes.retry
          { st with
              party := (performSpecial ⟨st.party, i, st.enemies, some j, st.inputs,
                          st.rng, st.menuReq⟩).2.2.party,
              enemies := (performSpecial ⟨st.party, i, st.enemies, some j, st.inputs,
                          st.rng, st.menuReq⟩).2.2.enemies,
              inputs := (performSpecial ⟨st.party, i, st.enemies, some j, st.inputs,
                          st.rng, st.menuReq⟩).2.2.inputs,
              rng := (performSpecial ⟨st.party, i, st.enemies, some j, st.inputs,
                          st.rng, st.menuReq⟩).2.2.rng,
              menuReq := (performSpecial ⟨st.party, i, st.enemies, some j, st.inputs,
                          st.rng, st.menuReq⟩).2.2.menuReq } ∧
      ({ st with
          party := (performSpecial ⟨st.party, i, st.enemies, some j, st.inputs,
                      st.rng, st.menuReq⟩).2.2.party,
          enemies := (performSpecial ⟨st.party, i, st.enemies, some j, st.inputs,
                      st.rng, st.menuReq⟩).2.2.enemies,
          inputs := (performSpecial ⟨st.party, i, st.enemies, some j, st.inputs,
                      st.rng, st.menuReq⟩).2.2.inputs,
          rng := (performSpecial ⟨st.party, i, st.enemies, some j, st.inputs,
                      st.rng, st.menuReq⟩).2.2.rng,
          menuReq := (performSpecial ⟨st.party, i, st.enemies, some j, st.inputs,
                      st.rng, st.menuReq⟩).2.2.menuReq } : PartyState).round
        = st.round) :=
  ⟨fun ctx j e rest hm hname hj he hin hmana =>
      performSpecial_macron_silence ctx j e rest hm hname hj he hin hmana,
   fun opts st rest hm hname hsu hin hmana hE =>
      soloIter_macron_silence opts st rest hm hname hsu hin hmana hE,
   fun opts i st j hn hsu hfa hmr hused =>
      partyAction_special_reprompt opts i st j hn hsu hfa hmr hused⟩

/-- Witness for the amended C10 at a concrete input: full-mana Macron
silences the template enemy; the loop continues with the turn counter
advanced and the enemy untouched. -/
theorem macron_silence_spec_witness :
    c10Solo.menuReq = false ∧ 14 ≤ c10Solo.player.mana ∧ 0 < c10Solo.enemy.hp ∧
    (soloIter plainOpts c10Solo).1 = SoloEv.cont ∧
    (soloIter plainOpts c10Solo).2.enemy.silenceTurns = 1 ∧
    (soloIter plainOpts c10Solo).2.turn = c10Solo.turn + 1 := by
  have h := macron_silence_spec.2.1 plainOpts c10Solo []
    (by decide) (by decide) (by decide) (by decide) (by decide) (by decide)
  exact ⟨by decide, by decide, by decide, h.1, h.2.2.2.2.1, h.2.1⟩

theorem selectEnemyLoop_pick_live (enemies : List Enemy) :
    ∀ (inputs : List String) (mflag : Bool) (idx : Nat) (rest : List String)
      (mflag2 : Bool),
      selectEnemyLoop enemies inputs mflag = SelRes.pick idx rest mflag2 →
      idx < enemies.length ∧ 0 < (enemies.getD idx default).hp := by
  intro inputs
  induction inputs with
  | nil => intro mflag idx rest mflag2 h; simp [selectEnemyLoop] at h
  | cons inp rest0 ih =>
      intro mflag idx rest mflag2 h
      unfold selectEnemyLoop at h
      dsimp only at h
      split at h
      next => simp at h
      next h1 =>
        split at h
        next => exact ih _ _ _ _ h
        next n hn =>
          split at h
          next h2 => exact ih _ _ _ _ h
          next h2 =>
            split at h
            next h3 => exact ih _ _ _ _ h
            next h3 =>
              rw [SelRes.pick.injEq] at h
              obtain ⟨hidx, -, -⟩ := h
              subst hidx
              push_neg at h2
              constructor
              · omega
              · have h4 : ¬ (enemies.getD (n.toNat - 1) default).hp ≤ 0 := h3
                omega

theorem selectEnemyLoop_skip_invalid (enemies : List Enemy) (inp : String)
    (rest : List String)
    (hmenu : isMenuInput inp = false)
    (hbad : parseIntGo inp = none ∨
      (∃ n : Int, parseIntGo inp = some n ∧
        (n ≤ 0 ∨ (enemies.length : Int) < n ∨
         (enemies.getD (n.toNat - 1) default).hp ≤ 0))) :
    selectEnemyLoop enemies (inp :: rest) false
      = selectEnemyLoop enemies rest false := by
  conv_lhs => rw [selectEnemyLoop]
  simp only [hmenu, Bool.false_or, Bool.or_false, Bool.false_eq_true, if_false]
  rcases hbad with hnone | ⟨n, hsome, hb⟩
  · simp only [hnone]
  · simp only [hsome]
    rcases hb with hb | hb | hb
    · rw [if_pos (Or.inl hb)]
    · rw [if_pos (Or.inr hb)]
    · by_cases hr : n ≤ 0 ∨ (enemies.length : Int) < n
      · rw [if_pos hr]
      · rw [if_neg hr, if_pos hb]

theorem firstAliveFrom_shift (es : List Enemy) :
    ∀ i : Nat, firstAliveFrom es i = (firstAliveFrom es 0).map (· + i) := by
  induction es with
  | nil => intro i; simp [firstAliveFrom]
  | cons e es ih =>
      intro i
      unfold firstAliveFrom
      split_ifs with h
      · simp
      · rw [ih (i + 1), ih 1, Option.map_map]
        congr 1
        funext k
        simp
        omega

theorem firstAliveEnemy_least (enemies : List Enemy) :
    ∀ j : Nat, firstAliveEnemy enemies = some j →
      j < enemies.length ∧ 0 < (enemies.getD j default).hp ∧
      ∀ k : Nat, k < j → (enemies.getD k default).hp ≤ 0 := by
  unfold firstAliveEnemy
  induction enemies with
  | nil => intro j h; simp [firstAliveFrom] at h
  | cons e es ih =>
      intro j h
      unfold firstAliveFrom at h
      split_ifs at h with h1
      · rw [Option.some.injEq] at h
        subst h
        refine ⟨by simp, by simpa using h1, by omega⟩
      · rw [firstAliveFrom_shift es 1] at h
        rcases hf : firstAliveFrom es 0 with _ | j0
        · rw [hf] at h; simp at h
        · rw [hf] at h
          simp only [Option.map_some'] at h
          rw [Option.some.injEq] at h
          obtain ⟨hl, hv, hmin⟩ := ih j0 hf
          subst h
          refine ⟨by simpa using hl, by simpa using hv, ?_⟩
          intro k hk
          rcases Nat.eq_zero_or_pos k with hk0 | hk0
          · subst hk0
            simpa using h1
          · have := hmin (k - 1) (by omega)
            have hkk : k = (k - 1) + 1 := by omega
            rw [hkk]
            simpa using this

/-- C4 counterexample: in the party loop, Macron's special-ability action
consumes the turn while auto-targeting the FIRST living enemy: with two
living enemies and the inputs "3" (special), "1" (weaken branch), "2" (a
would-be numbered pick of enemy 2), the turn resolves, enemy 1 receives
the weaken debuff, enemy 2 is untouched, and the input "2" is never
consumed — no numbered-list target pick takes place for specials. -/
theorem c4_special_autotarget_counterexample :
    (partyCharLoop plainOpts 0 2 c4Party).1 = CharRes.done ∧
    ((partyCharLoop plainOpts 0 2 c4Party).2.enemies.getD 0 default).weakenTurns = 2 ∧
    ((partyCharLoop plainOpts 0 2 c4Party).2.enemies.getD 1 default).weakenTurns = 0 ∧
    0 < (c4Party.enemies.getD 1 default).hp ∧
    (partyCharLoop plainOpts 0 2 c4Party).2.inputs = ["2"] := by
  refine ⟨by decide, by decide, by decide, by decide, by decide⟩

/-- C4 (amended): in the party loop the attack, spell and Nyan-cat
actions pick their target through `selectEnemy`, which only ever returns
a living enemy with a valid index, and re-prompts (inside the same turn,
consuming nothing but the rejected input line) on an unparsable number,
an out-of-range index or an already-defeated target; the special-ability
action does NOT prompt for a target and instead auto-targets the first
living enemy in list order. -/
theorem targetSelection_spec :
    (∀ (enemies : List Enemy) (inputs : List String) (mflag : Bool) (idx : Nat)
        (rest : List String) (mflag2 : Bool),
      selectEnemyLoop enemies inputs mflag = SelRes.pick idx rest mflag2 →
      idx < enemies.length ∧ 0 < (enemies.getD idx default).hp) ∧
    (∀ (enemies : List Enemy) (inp : String) (rest : List String),
      isMenuInput inp = false →
      (parseIntGo inp = none ∨
        (∃ n : Int, parseIntGo inp = some n ∧
          (n ≤ 0 ∨ (enemies.length : Int) < n ∨
           (enemies.getD (n.toNat - 1) default).hp ≤ 0))) →
      selectEnemyLoop enemies (inp :: rest) false
        = selectEnemyLoop enemies rest false) ∧
    (∀ (enemies : List Enemy) (j : Nat),
      firstAliveEnemy enemies = some j →
      j < enemies.length ∧ 0 < (enemies.getD j default).hp ∧
      ∀ k : Nat, k < j → (enemies.getD k default).hp ≤ 0) :=
  ⟨fun enemies inputs mflag idx rest mflag2 h =>
      selectEnemyLoop_pick_live enemies inputs mflag idx rest mflag2 h,
   fun enemies inp rest hmenu hbad =>
      selectEnemyLoop_skip_invalid enemies inp rest hmenu hbad,
   fun enemies j h => firstAliveEnemy_least enemies j h⟩

/-- Witness for the amended C4 at concrete inputs: the out-of-range pick
"5" is skipped and the pick "2" returns the living enemy at index 1; with
enemy 1 downed, `firstAliveEnemy` returns index 1. -/
theorem targetSelection_spec_witness :
    selectEnemyLoop [foeTemplate, foeB] ["5", "2"] false = SelRes.pick 1 [] false ∧
    (1 < ([foeTemplate, foeB] : List Enemy).length ∧
      0 < (([foeTemplate, foeB] : List Enemy).getD 1 default).hp) ∧
    isMenuInput "5" = false ∧
    selectEnemyLoop [foeTemplate, foeB] (["5", "2"] : List String) false
      = selectEnemyLoop [foeTemplate, foeB] ["2"] false ∧
    firstAliveEnemy [deadFoe, foeB] = some 1 ∧
    (deadFoe.hp ≤ 0 ∧ 0 < foeB.hp) := by
  refine ⟨by decide, ?_, by decide, ?_, by decide, by decide⟩
  · exact targetSelection_spec.1 [foeTemplate, foeB] ["5", "2"] false 1 [] false
      (by decide)
  · exact targetSelection_spec.2.1 [foeTemplate, foeB] "5" ["2"] (by decide)
      (Or.inr ⟨5, by decide, by decide⟩)


theorem reviveIfNeeded_pos (c : Character) : 0 < (reviveIfNeeded c).hp := by
  unfold reviveIfNeeded
  split_ifs with h1 h2 <;> simp_all <;> omega

theorem soloDefeat_hp (opts : battleOptions) (bet : Int) (st : SoloState) :
    (soloDefeat opts bet st).player.hp = (reviveIfNeeded st.player).hp := by
  unfold soloDefeat
  split_ifs <;> rfl

theorem soloLoop_defeat_revived (opts : battleOptions) (bet : Int) :
    ∀ (fuel : Nat) (st st' : SoloState),
      soloLoop opts bet fuel st = (SoloOutcome.defeat, st') →
      0 < st'.player.hp := by
  intro fuel
  induction fuel with
  | zero => intro st st' h; simp [soloLoop] at h
  | succ n ih =>
      intro st st' h
      unfold soloLoop at h
      split_ifs at h with hc
      · split at h
        · exact ih _ _ h
        · unfold soloResolve at h
          split_ifs at h with hv
          · simp at h
          · rw [Prod.mk.injEq] at h
            obtain ⟨-, h2⟩ := h
            subst h2
            rw [soloDefeat_hp]
            exact reviveIfNeeded_pos _
        · simp at h
        · simp at h
      · unfold soloResolve at h
        split_ifs at h with hv
        · simp at h
        · rw [Prod.mk.injEq] at h
          obtain ⟨-, h2⟩ := h
          subst h2
          rw [soloDefeat_hp]
          exact reviveIfNeeded_pos _

theorem partyDefeatBlock_pos (st : PartyState) :
    ∀ c ∈ (partyDefeatBlock st).party, 0 < c.hp := by
  unfold partyDefeatBlock
  intro c hc
  simp only [List.mem_map] at hc
  obtain ⟨x, -, rfl⟩ := hc
  exact reviveIfNeeded_pos x

theorem partyRound_defeat_shape (opts : battleOptions) (cf : Nat)
    (st st' : PartyState)
    (h : partyRound opts cf st = (RoundRes.defeatR, st')) :
    st' = partyDefeatBlock st := by
  unfold partyRound at h
  split_ifs at h with h1 h2
  · simp at h
  · rw [Prod.mk.injEq] at h
    exact h.2.symm
  · split at h
    · split_ifs at h <;> simp at h
    · simp at h
    · simp at h
    · simp at h

theorem partyLoop_defeat_revived (opts : battleOptions) (cf : Nat) :
    ∀ (fuel : Nat) (st st' : PartyState),
      partyLoop opts cf fuel st = (PartyOutcome.defeat, st') →
      ∀ c ∈ st'.party, 0 < c.hp := by
  intro fuel
  induction fuel with
  | zero => intro st st' h; simp [partyLoop] at h
  | succ n ih =>
      intro st st' h
      unfold partyLoop at h
      split at h
      · exact ih _ _ h
      · simp at h
      · rename_i heq
        rw [Prod.mk.injEq] at h
        obtain ⟨-, h2⟩ := h
        subst h2
        rw [partyRound_defeat_shape opts cf st _ heq]
        exact partyDefeatBlock_pos st
      · simp at h
      · simp at h
      · simp at h

/-- C3 counterexample: a party encounter can end in VICTORY with a
member's health at zero. Bob is knocked out in round 1, Kaaris clears the
field in round 2, the victory block grants no experience (reward 0) and
revives nobody, so the encounter returns with Bob still at 0 health. -/
theorem c3_victory_zero_health_counterexample :
    (fightParty 6 plainOpts c3Party).1 = PartyOutcome.victory ∧
    ((fightParty 6 plainOpts c3Party).2.party.getD 1 default).hp = 0 := by
  exact ⟨by decide, by decide⟩

/-- C3 (amended): `reviveIfNeeded` restores a character at or below zero
health to `max(1, maxHP/2)` with the shield pool cleared (and always
leaves health positive), and both combat loops apply it on the DEFEAT
path, so no character's health is zero when an encounter ends in defeat;
on a party victory (or retreat) a knocked-out member may remain at zero
health — revival then happens at the start of the next party encounter. -/
theorem defeat_revival_spec :
    (∀ c : Character,
      (c.hp ≤ 0 → reviveIfNeeded c =
        { c with hp := max 1 (c.maxHP.tdiv 2), shieldHP := 0 }) ∧
      (0 < c.hp → reviveIfNeeded c = c) ∧
      0 < (reviveIfNeeded c).hp) ∧
    (∀ (fuel : Nat) (opts : battleOptions) (st st' : SoloState),
      fightSolo fuel opts st = (SoloOutcome.defeat, st') → 0 < st'.player.hp) ∧
    (∀ (fuel : Nat) (opts : battleOptions) (st st' : PartyState),
      fightParty fuel opts st = (PartyOutcome.defeat, st') →
      ∀ c ∈ st'.party, 0 < c.hp) := by
  refine ⟨?_, ?_, ?_⟩
  · intro c
    refine ⟨?_, ?_, reviveIfNeeded_pos c⟩
    · intro h
      unfold reviveIfNeeded
      rw [if_pos h]
      have hx : (if c.maxHP.tdiv 2 < 1 then (1 : Int) else c.maxHP.tdiv 2)
          = max 1 (c.maxHP.tdiv 2) := by
        generalize c.maxHP.tdiv 2 = t
        omega
      rw [hx]
    · intro h
      unfold reviveIfNeeded
      rw [if_neg (by omega)]
  · intro fuel opts st st' h
    unfold fightSolo at h
    split at h
    · simp at h
    · exact soloLoop_defeat_revived opts _ fuel _ _ h
  · intro fuel opts st st' h
    unfold fightParty at h
    exact partyLoop_defeat_revived opts fuel fuel _ _ h

/-- Witness for the amended C3 at concrete inputs: a lost solo fight ends
with the player revived to positive health, and reviving a knocked-out
Bob restores `max(1, 20/2) = 10` health with the shield cleared. -/
theorem defeat_revival_spec_witness :
    (fightSolo 3 plainOpts c3SoloDefeatSt).1 = SoloOutcome.defeat ∧
    0 < (fightSolo 3 plainOpts c3SoloDefeatSt).2.player.hp ∧
    koBob.hp ≤ 0 ∧
    reviveIfNeeded koBob
      = { koBob with hp := max 1 (koBob.maxHP.tdiv 2), shieldHP := 0 } := by
  refine ⟨by decide, ?_, by decide, ?_⟩
  · apply defeat_revival_spec.2.1 3 plainOpts c3SoloDefeatSt
    have h1 : (fightSolo 3 plainOpts c3SoloDefeatSt).1 = SoloOutcome.defeat := by
      decide
    conv_lhs => rw [← Prod.mk.eta (p := fightSolo 3 plainOpts c3SoloDefeatSt)]
    rw [h1]
  · exact (defeat_revival_spec.1 koBob).1 (by decide)


theorem boostGuard_betPts (c : Character) (d g : Int) :
    (boostGuard c d g).2.betPts = c.betPts := by
  unfold boostGuard
  repeat' split
  all_goals rfl

theorem hitChar_betPts (c : Character) (d : Int) : (hitChar c d).betPts = c.betPts := rfl

theorem absorbShieldDamage_betPts (c : Character) (d : Int) :
    (absorbShieldDamage c d).2.betPts = c.betPts := by
  unfold absorbShieldDamage
  repeat' split
  all_goals rfl

theorem applyEffect_betPts (eid : String) (c : Character) (en : Option Enemy)
    (r : Bool × Character × Option Enemy) (h : applyEffect eid c en = some r) :
    r.2.1.betPts = c.betPts := by
  unfold applyEffect at h
  repeat' split at h
  all_goals first
    | (rw [Option.some.injEq] at h; subst h; rfl)
    | simp at h

theorem applyItem_betPts (c : Character) (en : Option Enemy) (id : String) :
    (applyItem c en id).2.1.betPts = c.betPts := by
  unfold applyItem
  split
  · rfl
  · split
    · rfl
    · rename_i d r h
      exact applyEffect_betPts _ _ _ _ h

theorem useInventory_betPts_aux (c : Character) (so : Option Enemy) (group : List Enemy)
    (inputs : List String) (mflag : Bool) :
    invBetPtsOK c (useInventory c so group inputs mflag) := by
  unfold useInventory
  split
  · simp [invBetPtsOK]
  · dsimp only
    obtain ⟨s, i2, m2⟩ := readInput inputs mflag
    dsimp only
    repeat' split
    all_goals simp [invBetPtsOK, applyItem_betPts]

theorem useInventory_betPts (c : Character) (so : Option Enemy) (group : List Enemy)
    (inputs : List String) (mflag : Bool) (u : Bool) (c2 : Character) (so2 : Option Enemy)
    (g2 : List Enemy) (i2 : List String) (m2 : Bool)
    (h : useInventory c so group inputs mflag = InvRes.done u c2 so2 g2 i2 m2) :
    c2.betPts = c.betPts := by
  have ha := useInventory_betPts_aux c so group inputs mflag
  rw [h] at ha
  exact ha

theorem soloUseInventory_betPts (st : SoloState) :
    (soloUseInventory st).2.player.betPts = st.player.betPts := by
  unfold soloUseInventory
  split
  · rename_i u c so g i m h
    dsimp only
    exact useInventory_betPts _ _ _ _ _ _ _ _ _ _ _ h
  · rfl

theorem soloSpecial_betPts (st : SoloState) :
    (soloSpecial st).2.2.player.betPts = st.player.betPts := by
  unfold soloSpecial performSpecial
  simp only [SpecCtx.caster, SpecCtx.enemyAt, List.getD_cons_zero]
  obtain ⟨s, i2, m2⟩ := readInput st.inputs st.menuReq
  dsimp only
  repeat' split
  all_goals
    simp [SpecCtx.caster, SpecCtx.setCaster, SpecCtx.setEnemyAt, SpecCtx.withRng,
      boostGuard, shieldAllies, healAllies, List.getD]
  all_goals (repeat' split) <;> rfl

theorem soloEnemyPhase_betPts (st : SoloState) :
    (soloEnemyPhase st).2.player.betPts = st.player.betPts := by
  unfold soloEnemyPhase
  dsimp only
  by_cases hp : 0 < st.enemy.poisonTurns
  · simp only [if_pos hp, hp, true_and]
    repeat' split
    all_goals simp [hitChar, absorbShieldDamage_betPts]
  · simp only [if_neg hp, hp, false_and, if_false]
    repeat' split
    all_goals simp [hitChar, absorbShieldDamage_betPts]


theorem soloStep_betPts_aux (opts : battleOptions) (a : String) (st : SoloState) :
    stepBetPtsOK st.player.betPts (soloStep opts a st) := by
  have hsp := soloSpecial_betPts st
  have hui := soloUseInventory_betPts st
  by_cases h1 : a = "1"
  · subst h1
    simp [soloStep, stepBetPtsOK, boostGuard_betPts]
  by_cases h2 : a = "2"
  · subst h2
    simp only [soloStep]
    repeat' split
    all_goals simp_all [stepBetPtsOK, boostGuard_betPts]
  by_cases h3 : a = "3"
  · subst h3
    simp only [soloStep]
    generalize hS : soloSpecial st = sp at hsp ⊢
    obtain ⟨spu, spc, sps⟩ := sp
    dsimp only at hsp ⊢
    repeat' split
    all_goals simp_all [stepBetPtsOK, boostGuard_betPts]
  by_cases h4 : a = "4"
  · subst h4
    simp only [soloStep]
    generalize hS : soloSpecial st = sp at hsp ⊢
    generalize hU : soloUseInventory st = ui at hui ⊢
    obtain ⟨spu, spc, sps⟩ := sp
    obtain ⟨uiu, uis⟩ := ui
    dsimp only at hsp hui ⊢
    repeat' split
    all_goals simp_all [stepBetPtsOK, boostGuard_betPts]
  by_cases h5 : a = "5"
  · subst h5
    simp only [soloStep]
    generalize hU : soloUseInventory st = ui at hui ⊢
    obtain ⟨uiu, uis⟩ := ui
    dsimp only at hui ⊢
    repeat' split
    all_goals simp_all [stepBetPtsOK, boostGuard_betPts]
  by_cases h6 : a = "6"
  · subst h6
    simp only [soloStep]
    repeat' split
    all_goals simp_all [stepBetPtsOK]
  by_cases h7 : a = "7"
  · subst h7
    simp only [soloStep]
    repeat' split
    all_goals simp_all [stepBetPtsOK]
  simp only [soloStep, h1, h2, h3, h4, h5, h6, h7]
  simp [stepBetPtsOK]

theorem soloStep_betPts (opts : battleOptions) (a : String) (st : SoloState)
    (ct : Bool) (st2 : SoloState) (h : soloStep opts a st = some (ct, st2)) :
    st2.player.betPts = st.player.betPts := by
  have ha := soloStep_betPts_aux opts a st
  rw [h] at ha
  exact ha

theorem soloIter_betPts (opts : battleOptions) (st : SoloState) :
    (soloIter opts st).2.player.betPts = st.player.betPts := by
  unfold soloIter
  obtain ⟨a, i2, m2⟩ := readInput st.inputs st.menuReq
  dsimp only
  cases m2 with
  | true => simp
  | false =>
    simp only [Bool.false_eq_true, if_false]
    rcases hstep : soloStep opts a { st with inputs := i2, menuReq := false } with _ | ⟨ct, st2⟩
    · repeat' split
      all_goals first | rfl | simp_all
    · have hb := soloStep_betPts opts a _ ct st2 hstep
      repeat' split
      all_goals simp_all [soloEnemyPhase_betPts]

theorem reviveIfNeeded_betPts (c : Character) :
    (reviveIfNeeded c).betPts = c.betPts := by
  unfold reviveIfNeeded
  split <;> rfl

theorem levelUpLoop_betPts :
    ∀ (n : Nat) (c : Character), c.xp.toNat ≤ n →
      (levelUpLoop c).betPts = c.betPts := by
  intro n
  induction n with
  | zero =>
      intro c hn
      have h100 : ¬ 100 ≤ c.xp := by omega
      rw [levelUpLoop, if_neg h100]
  | succ n ih =>
      intro c hn
      by_cases h100 : 100 ≤ c.xp
      · rw [levelUpLoop, if_pos h100]
        rw [ih _ (by simp; omega)]
      · rw [levelUpLoop, if_neg h100]

theorem gainXP_betPts (c : Character) (a : Int) :
    (gainXP c a).betPts = c.betPts := by
  unfold gainXP
  exact levelUpLoop_betPts ({ c with xp := c.xp + a }).xp.toNat _ le_rfl

theorem soloVictory_betPts (opts : battleOptions) (bet : Int) (st : SoloState)
    (hAB : opts.allowBet = true) (hRB : opts.rewardBetPts = 0) (hbet : 1 < bet) :
    (soloVictory opts bet st).player.betPts = st.player.betPts + (bet - 1) := by
  unfold soloVictory
  dsimp only
  split_ifs with h1 h2 h3 h4 <;> simp_all [gainXP_betPts]

theorem soloDefeat_betPts (opts : battleOptions) (bet : Int) (st : SoloState)
    (hAB : opts.allowBet = true) (hbet : 1 < bet) :
    (soloDefeat opts bet st).player.betPts = max 0 (st.player.betPts - bet) := by
  unfold soloDefeat
  dsimp only
  split_ifs with h1 h2 <;> simp_all [reviveIfNeeded_betPts] <;> omega

theorem soloLoop_betPts (opts : battleOptions) (bet : Int)
    (hAB : opts.allowBet = true) (hRB : opts.rewardBetPts = 0) (hbet : 1 < bet) :
    ∀ (fuel : Nat) (st st2 : SoloState),
      (soloLoop opts bet fuel st = (SoloOutcome.victory, st2) →
        st2.player.betPts = st.player.betPts + (bet - 1)) ∧
      (soloLoop opts bet fuel st = (SoloOutcome.defeat, st2) →
        st2.player.betPts = max 0 (st.player.betPts - bet)) := by
  intro fuel
  induction fuel with
  | zero =>
      intro st st2
      constructor <;> (intro h; simp [soloLoop] at h)
  | succ n ih =>
      intro st st2
      have hiter := soloIter_betPts opts st
      have hres : ∀ (s : SoloState),
          (soloResolve opts bet s = (SoloOutcome.victory, st2) →
            st2.player.betPts = s.player.betPts + (bet - 1)) ∧
          (soloResolve opts bet s = (SoloOutcome.defeat, st2) →
            st2.player.betPts = max 0 (s.player.betPts - bet)) := by
        intro s
        unfold soloResolve
        constructor <;> intro h <;> split at h <;>
          rw [Prod.mk.injEq] at h <;> obtain ⟨hc, hs⟩ := h <;>
          first
            | (subst hs
               first
                 | exact soloVictory_betPts opts bet s hAB hRB hbet
                 | exact soloDefeat_betPts opts bet s hAB hbet)
            | simp at hc
      constructor <;> intro h <;> rw [soloLoop] at h
      · split at h
        · split at h
          · rename_i st1 heq
            have h2 := (ih st1 st2).1 h
            rw [heq] at hiter
            dsimp only at hiter
            omega
          · rename_i st1 heq
            rw [heq] at hiter
            dsimp only at hiter
            have h3 := (hres st1).1 h
            omega
          · simp at h
          · simp at h
        · exact (hres st).1 h
      · split at h
        · split at h
          · rename_i st1 heq
            have h2 := (ih st1 st2).2 h
            rw [heq] at hiter
            dsimp only at hiter
            omega
          · rename_i st1 heq
            rw [heq] at hiter
            dsimp only at hiter
            have h3 := (hres st1).2 h
            omega
          · simp at h
          · simp at h
        · exact (hres st).2 h

/-- C2: in a solo encounter with wagering enabled, a chosen stake
greater than 1 and no flat wager-point bonus configured, a victory raises
the player's wager-point balance by exactly stake − 1, and a defeat
lowers it by exactly the stake, clamped at zero from below. -/
theorem soloWager_betPts_spec (fuel : Nat) (opts : battleOptions)
    (st st2 : SoloState)
    (hAB : opts.allowBet = true) (hRB : opts.rewardBetPts = 0)
    (hbet : 1 < soloChosenBet opts st) :
    (fightSolo fuel opts st = (SoloOutcome.victory, st2) →
      st2.player.betPts = st.player.betPts + (soloChosenBet opts st - 1)) ∧
    (fightSolo fuel opts st = (SoloOutcome.defeat, st2) →
      st2.player.betPts = max 0 (st.player.betPts - soloChosenBet opts st)) := by
  unfold fightSolo
  unfold soloChosenBet at hbet ⊢
  rcases hinit : soloInit opts st with ⟨bet, st1⟩ | ⟨st1⟩
  · rw [hinit] at hbet
    dsimp only at hbet ⊢
    have hfr := (soloInit_go_spec opts st bet st1 hinit).2.2.2.2
    have hl := soloLoop_betPts opts bet hAB hRB hbet fuel st1 st2
    constructor <;> intro h
    · have := hl.1 h
      omega
    · have := hl.2 h
      omega
  · rw [hinit] at hbet
    dsimp only at hbet
    omega

theorem soloWager_betPts_spec_witness :
    betOpts.allowBet = true ∧ betOpts.rewardBetPts = 0 ∧
    1 < soloChosenBet betOpts c2State ∧
    (fightSolo 4 betOpts c2State).1 = SoloOutcome.victory ∧
    (fightSolo 4 betOpts c2State).2.player.betPts
      = c2State.player.betPts + (soloChosenBet betOpts c2State - 1) := by
  refine ⟨rfl, rfl, by decide, by decide, ?_⟩
  apply (soloWager_betPts_spec 4 betOpts c2State
    (fightSolo 4 betOpts c2State).2 rfl rfl (by decide)).1
  have h1 : (fightSolo 4 betOpts c2State).1 = SoloOutcome.victory := by decide
  conv_lhs => rw [← Prod.mk.eta (p := fightSolo 4 betOpts c2State)]
  rw [h1]


theorem hitChar_inv (c : Character) (d : Int) (hc : charInv c) (hd : 0 ≤ d) :
    charInv (hitChar c d) := by
  unfold charInv hitChar at *
  dsimp only
  split_ifs <;> omega

theorem hitEnemy_inv (e : Enemy) (d : Int) (he : enemyInv e) (hd : 0 ≤ d) :
    enemyInv (hitEnemy e d) := by
  unfold enemyInv hitEnemy at *
  dsimp only
  split_ifs <;> omega

theorem absorbShieldDamage_inv (c : Character) (d : Int) (hc : charInv c) :
    charInv (absorbShieldDamage c d).2 := by
  unfold charInv absorbShieldDamage at *
  split_ifs <;> dsimp only <;> omega

theorem boostGuard_inv (c : Character) (d g : Int) (hc : charInv c) :
    charInv (boostGuard c d g).2 := by
  unfold charInv boostGuard at *
  split_ifs <;> dsimp only <;> omega

theorem boostGuard_nonneg (c : Character) (d g : Int) (hd : 0 ≤ d) (hg : 0 ≤ g) :
    0 ≤ (boostGuard c d g).1 := by
  unfold boostGuard
  split_ifs with h1 h2 h3
  all_goals dsimp only
  all_goals try omega
  · have := mul_nonneg hd (le_of_lt h1)
    omega
  · have := mul_nonneg hd (le_of_lt h1)
    omega

theorem reviveIfNeeded_inv (c : Character) (hc : charInv c) :
    charInv (reviveIfNeeded c) := by
  unfold charInv reviveIfNeeded at *
  have h2 : c.maxHP.tdiv 2 = c.maxHP / 2 := Int.tdiv_eq_ediv (by omega) (by omega)
  split_ifs <;> simp only [h2] at * <;> omega

theorem resetCombatFlags_inv (c : Character) (hc : charInv c) :
    charInv (resetCombatFlags c) := by
  unfold charInv resetCombatFlags at *
  exact hc

theorem levelUpLoop_inv :
    ∀ (n : Nat) (c : Character), c.xp.toNat ≤ n → charInv c →
      charInv (levelUpLoop c) := by
  intro n
  induction n with
  | zero =>
      intro c hn hc
      have h100 : ¬ 100 ≤ c.xp := by omega
      rw [levelUpLoop, if_neg h100]
      exact hc
  | succ n ih =>
      intro c hn hc
      by_cases h100 : 100 ≤ c.xp
      · rw [levelUpLoop, if_pos h100]
        refine ih _ (by simp; omega) ?_
        unfold charInv at hc ⊢
        dsimp only
        omega
      · rw [levelUpLoop, if_neg h100]
        exact hc

theorem gainXP_inv (c : Character) (a : Int) (hc : charInv c) :
    charInv (gainXP c a) := by
  unfold gainXP
  refine levelUpLoop_inv ({ c with xp := c.xp + a }).xp.toNat _ le_rfl ?_
  unfold charInv at hc ⊢
  dsimp only
  omega

theorem enemyStrike_inv (e : Enemy) (he : enemyInv e) :
    enemyInv (enemyStrike e).2 := by
  unfold enemyInv enemyStrike at *
  by_cases hw : 0 < e.weakenTurns
  · simp only [if_pos hw]
    split_ifs <;> dsimp only <;> omega
  · simp only [if_neg hw]
    split_ifs <;> dsimp only <;> omega

theorem applyEffect_inv (eid : String) (c : Character) (en : Option Enemy)
    (r : Bool × Character × Option Enemy)
    (hc : charInv c) (hen : optEnemyInv en)
    (h : applyEffect eid c en = some r) :
    charInv r.2.1 ∧ optEnemyInv r.2.2 := by
  unfold applyEffect at h
  repeat' split at h
  all_goals first
    | (rw [Option.some.injEq] at h
       subst h
       refine ⟨?_, ?_⟩ <;>
         first
           | exact hc
           | exact hen
           | (dsimp only [optEnemyInv] at hen ⊢
              first
                | exact hitEnemy_inv _ _ hen (by first | omega | (split_ifs <;> omega))
                | (unfold enemyInv at hen ⊢; dsimp only; omega))
           | exact hitChar_inv c 30 hc (by omega)
           | (unfold charInv at hc ⊢
              dsimp only
              first
                | omega
                | (split_ifs <;> omega)))
    | simp at h

theorem applyItem_inv (c : Character) (en : Option Enemy) (id : String)
    (hc : charInv c) (hen : optEnemyInv en) :
    charInv (applyItem c en id).2.1 ∧ optEnemyInv (applyItem c en id).2.2 := by
  unfold applyItem
  split
  · exact ⟨hc, hen⟩
  · split
    · exact ⟨hc, hen⟩
    · rename_i d r h
      exact applyEffect_inv _ _ _ _ hc hen h

theorem useInventory_inv_aux (c : Character) (so : Option Enemy) (group : List Enemy)
    (inputs : List String) (mflag : Bool) (hc : charInv c)
    (hso : optEnemyInv so) (hg : ∀ e ∈ group, enemyInv e) :
    invInvOK (useInventory c so group inputs mflag) := by
  have hinv : ∀ (x : Character) (l : List String), charInv x →
      charInv { x with inventory := l } := by
    intro x l hx
    unfold charInv at *
    exact hx
  have happ : ∀ id, charInv (applyItem c so id).2.1 ∧
      optEnemyInv (applyItem c so id).2.2 :=
    fun id => applyItem_inv c so id hc hso
  have happ2 : ∀ (j : Nat) (id : String), charInv (applyItem c (group.get? j) id).2.1 ∧
      optEnemyInv (applyItem c (group.get? j) id).2.2 := by
    intro j id
    refine applyItem_inv c _ id hc ?_
    cases hgj : group.get? j with
    | none => exact trivial
    | some e => exact hg e (List.get?_mem hgj)
  have hset : ∀ (j : Nat) (id : String) (e2 : Enemy),
      (applyItem c (group.get? j) id).2.2 = some e2 → enemyInv e2 := by
    intro j id e2 h22
    have h3 := (happ2 j id).2
    rw [h22] at h3
    exact h3
  unfold useInventory
  split
  · exact ⟨hc, hso, hg⟩
  · dsimp only
    obtain ⟨s, i2, m2⟩ := readInput inputs mflag
    dsimp only
    repeat' split
    all_goals first
      | trivial
      | exact ⟨hc, hso, hg⟩
      | (refine ⟨hinv _ _ (happ _).1, (happ _).2, hg⟩)
      | (refine ⟨(happ _).1, (happ _).2, hg⟩)
      | (refine ⟨?_, hso, ?_⟩
         · first
             | exact hinv _ _ (happ2 _ _).1
             | exact (happ2 _ _).1
         · first
             | exact hg
             | (intro x hx
                rcases List.mem_or_eq_of_mem_set hx with hx2 | hx2
                · exact hg x hx2
                · subst hx2
                  exact hset _ _ _ (by assumption)))

theorem soloUseInventory_inv (st : SoloState) (hs : soloInv st) :
    soloInv (soloUseInventory st).2 := by
  obtain ⟨hc, he⟩ := hs
  unfold soloUseInventory
  split
  · rename_i u c2 so2 g2 i2 m2 h
    have ha := useInventory_inv_aux st.player (some st.enemy) [] st.inputs st.menuReq
      hc he (by simp)
    rw [h] at ha
    obtain ⟨h1, h2, h3⟩ := ha
    refine ⟨h1, ?_⟩
    cases so2 with
    | none => exact he
    | some e2 => exact h2
  · exact ⟨hc, he⟩

theorem boostGuard_hp2 (c : Character) (d g : Int) :
    (boostGuard c d g).2.hp = c.hp := by
  unfold boostGuard
  split_ifs <;> rfl

theorem boostGuard_maxHP2 (c : Character) (d g : Int) :
    (boostGuard c d g).2.maxHP = c.maxHP := by
  unfold boostGuard
  split_ifs <;> rfl

theorem getD_charInv (p : List Character) (i : Nat)
    (hp : ∀ c ∈ p, charInv c) (hl : i < p.length) :
    charInv (p.getD i default) := by
  rw [List.getD_eq_getElem?_getD, List.getElem?_eq_getElem hl]
  exact hp _ (List.getElem_mem hl)

theorem set_charInv (p : List Character) (i : Nat) (c2 : Character)
    (hp : ∀ c ∈ p, charInv c) (h2 : charInv c2) :
    ∀ c ∈ p.set i c2, charInv c := by
  intro x hx
  rcases List.mem_or_eq_of_mem_set hx with h1 | h1
  · exact hp x h1
  · subst h1
    exact h2

theorem set_enemyInv (p : List Enemy) (i : Nat) (e2 : Enemy)
    (hp : ∀ e ∈ p, enemyInv e) (h2 : enemyInv e2) :
    ∀ e ∈ p.set i e2, enemyInv e := by
  intro x hx
  rcases List.mem_or_eq_of_mem_set hx with h1 | h1
  · exact hp x h1
  · subst h1
    exact h2

theorem shieldAllies_inv (p : List Character) (hp : ∀ c ∈ p, charInv c) :
    ∀ c ∈ (shieldAllies p).1, charInv c := by
  intro x hx
  unfold shieldAllies at hx
  rw [List.mem_map] at hx
  obtain ⟨a, ha, hax⟩ := hx
  subst hax
  have := hp a ha
  unfold charInv at *
  split_ifs <;> first | omega | (dsimp only; omega)

theorem healAllies_inv (p : List Character) (hp : ∀ c ∈ p, charInv c) :
    ∀ c ∈ (healAllies p).1, charInv c := by
  intro x hx
  unfold healAllies at hx
  rw [List.mem_map] at hx
  obtain ⟨a, ha, hax⟩ := hx
  subst hax
  have := hp a ha
  unfold charInv at *
  split_ifs <;> first | omega | (dsimp only; omega)

theorem enemyAt_inv (ctx : SpecCtx) (e : Enemy)
    (he : ∀ x ∈ ctx.enemies, enemyInv x) (heq : ctx.enemyAt = some e) :
    enemyInv e := by
  unfold SpecCtx.enemyAt at heq
  split at heq
  · simp at heq
  · exact he e (List.get?_mem heq)

theorem set_caster_inv (p : List Character) (i : Nat) (c2 : Character)
    (hp : ∀ c ∈ p, charInv c)
    (h2 : charInv (p.getD i default) → charInv c2) :
    ∀ c ∈ p.set i c2, charInv c := by
  by_cases hl : i < p.length
  · exact set_charInv p i c2 hp (h2 (getD_charInv p i hp hl))
  · rw [List.set_eq_of_length_le (by omega)]
    exact hp

theorem performSpecial_inv (ctx : SpecCtx)
    (hp : ∀ c ∈ ctx.party, charInv c) (he : ∀ e ∈ ctx.enemies, enemyInv e) :
    (∀ c ∈ (performSpecial ctx).2.2.party, charInv c) ∧
    (∀ e ∈ (performSpecial ctx).2.2.enemies, enemyInv e) := by
  unfold performSpecial
  obtain ⟨s, i2, m2⟩ := readInput ctx.inputs ctx.menuReq
  dsimp only
  repeat' split
  all_goals refine ⟨?_, ?_⟩
  all_goals
    simp only [SpecCtx.setCaster, SpecCtx.setEnemyAt, SpecCtx.withRng, SpecCtx.caster]
  all_goals (repeat' split)
  all_goals first
    | exact hp
    | exact he
    | exact shieldAllies_inv _ hp
    | exact healAllies_inv _ hp
    | (exact set_caster_inv _ _ _ hp (fun hcI => by
         unfold charInv at hcI ⊢
         simp only [boostGuard_hp2, boostGuard_maxHP2]
         try simp only [SpecCtx.caster] at *
         first | exact hcI | omega | (split_ifs <;> omega)))
    | (exact set_caster_inv _ _ _ (shieldAllies_inv _ hp) (fun hcI => by
         unfold charInv at hcI ⊢
         first | exact hcI | omega | (split_ifs <;> omega)))
    | (exact set_caster_inv _ _ _ (healAllies_inv _ hp) (fun hcI => by
         unfold charInv at hcI ⊢
         first | exact hcI | omega | (split_ifs <;> omega)))
    | (exact shieldAllies_inv _ (set_caster_inv _ _ _ hp (fun hcI => by
         unfold charInv at hcI ⊢
         first | exact hcI | omega | (split_ifs <;> omega))))
    | (exact healAllies_inv _ (set_caster_inv _ _ _ hp (fun hcI => by
         unfold charInv at hcI ⊢
         first | exact hcI | omega | (split_ifs <;> omega))))
    | (exact set_caster_inv _ _ _
         (shieldAllies_inv _ (set_caster_inv _ _ _ hp (fun hcI => by
            unfold charInv at hcI ⊢
            first | exact hcI | omega | (split_ifs <;> omega))))
         (fun hcI => by
            unfold charInv at hcI ⊢
            first | exact hcI | omega | (split_ifs <;> omega)))
    | (exact set_caster_inv _ _ _
         (healAllies_inv _ (set_caster_inv _ _ _ hp (fun hcI => by
            unfold charInv at hcI ⊢
            first | exact hcI | omega | (split_ifs <;> omega))))
         (fun hcI => by
            unfold charInv at hcI ⊢
            first | exact hcI | omega | (split_ifs <;> omega)))
    | (refine set_enemyInv _ _ _ he ?_
       first
         | exact hitEnemy_inv _ _ (enemyAt_inv ctx _ he (by assumption))
             (boostGuard_nonneg _ _ _ (by omega) (by omega))
         | (have hE := enemyAt_inv ctx _ he (by assumption)
            unfold enemyInv at hE ⊢
            first | exact hE | omega | (dsimp only; omega)))

theorem getD_enemyInv (p : List Enemy) (i : Nat)
    (hp : ∀ e ∈ p, enemyInv e) (hl : i < p.length) :
    enemyInv (p.getD i default) := by
  rw [List.getD_eq_getElem?_getD, List.getElem?_eq_getElem hl]
  exact hp _ (List.getElem_mem hl)

theorem performSpecial_lengths (ctx : SpecCtx) :
    (performSpecial ctx).2.2.party.length = ctx.party.length ∧
    (performSpecial ctx).2.2.enemies.length = ctx.enemies.length := by
  unfold performSpecial
  obtain ⟨s, i2, m2⟩ := readInput ctx.inputs ctx.menuReq
  dsimp only
  repeat' split
  all_goals refine ⟨?_, ?_⟩
  all_goals
    simp only [SpecCtx.setCaster, SpecCtx.setEnemyAt, SpecCtx.withRng, shieldAllies,
      healAllies]
  all_goals (repeat' split)
  all_goals simp

theorem soloSpecial_inv (st : SoloState) (hs : soloInv st) :
    soloInv (soloSpecial st).2.2 := by
  obtain ⟨hc, he⟩ := hs
  have hps := performSpecial_inv ⟨[st.player], 0, [st.enemy], some 0, st.inputs,
      st.rng, st.menuReq⟩
    (by intro x hx
        rw [List.mem_singleton] at hx
        subst hx
        exact hc)
    (by intro x hx
        rw [List.mem_singleton] at hx
        subst hx
        exact he)
  have hlen := performSpecial_lengths ⟨[st.player], 0, [st.enemy], some 0, st.inputs,
      st.rng, st.menuReq⟩
  unfold soloSpecial
  dsimp only
  refine ⟨?_, ?_⟩
  · exact getD_charInv _ _ hps.1 (by rw [hlen.1]; simp)
  · exact getD_enemyInv _ _ hps.2 (by rw [hlen.2]; simp)

theorem absorb_hp2 (c : Character) (d : Int) :
    (absorbShieldDamage c d).2.hp = c.hp := by
  unfold absorbShieldDamage
  split_ifs <;> rfl

theorem absorb_maxHP2 (c : Character) (d : Int) :
    (absorbShieldDamage c d).2.maxHP = c.maxHP := by
  unfold absorbShieldDamage
  split_ifs <;> rfl

theorem enemyStrike_hp2 (e : Enemy) : (enemyStrike e).2.hp = e.hp := by
  unfold enemyStrike
  by_cases hw : 0 < e.weakenTurns
  · simp only [if_pos hw]
    split_ifs <;> rfl
  · simp only [if_neg hw]
    split_ifs <;> rfl

theorem enemyStrike_maxHP2 (e : Enemy) : (enemyStrike e).2.maxHP = e.maxHP := by
  unfold enemyStrike
  by_cases hw : 0 < e.weakenTurns
  · simp only [if_pos hw]
    split_ifs <;> rfl
  · simp only [if_neg hw]
    split_ifs <;> rfl

theorem enemyStrike_poisonDmg2 (e : Enemy) : (enemyStrike e).2.poisonDmg = e.poisonDmg := by
  unfold enemyStrike
  by_cases hw : 0 < e.weakenTurns
  · simp only [if_pos hw]
    split_ifs <;> rfl
  · simp only [if_neg hw]
    split_ifs <;> rfl

theorem soloEnemyPhase_inv (st : SoloState) (hs : soloInv st) :
    soloInv (soloEnemyPhase st).2 := by
  obtain ⟨hc, he⟩ := hs
  unfold charInv at hc
  unfold enemyInv at he
  unfold soloEnemyPhase
  dsimp only
  by_cases hpo : 0 < st.enemy.poisonTurns
  · simp only [if_pos hpo, hpo, true_and]
    repeat' split
    all_goals refine ⟨?_, ?_⟩ <;>
      (try dsimp only at *
       try simp only [enemyStrike_hp2, enemyStrike_maxHP2, enemyStrike_poisonDmg2,
         hitChar, hitEnemy, absorb_hp2, absorb_maxHP2] at *
       try unfold charInv
       try unfold enemyInv
       try dsimp only
       try simp only [enemyStrike_hp2, enemyStrike_maxHP2, enemyStrike_poisonDmg2,
         hitChar, hitEnemy, absorb_hp2, absorb_maxHP2]
       first | omega | (split_ifs <;> omega))
  · simp only [if_neg hpo, hpo, false_and, if_false]
    repeat' split
    all_goals refine ⟨?_, ?_⟩ <;>
      (try dsimp only at *
       try simp only [enemyStrike_hp2, enemyStrike_maxHP2, enemyStrike_poisonDmg2,
         hitChar, hitEnemy, absorb_hp2, absorb_maxHP2] at *
       try unfold charInv
       try unfold enemyInv
       try dsimp only
       try simp only [enemyStrike_hp2, enemyStrike_maxHP2, enemyStrike_poisonDmg2,
         hitChar, hitEnemy, absorb_hp2, absorb_maxHP2]
       first | omega | (split_ifs <;> omega))

theorem baseAttack_nonneg (c : Character) : 0 ≤ baseAttack c := by
  unfold baseAttack
  repeat' split
  all_goals omega

theorem soloStep_inv_aux (opts : battleOptions) (a : String) (st : SoloState)
    (hs : soloInv st) : stepInvOK (soloStep opts a st) := by
  have hatk : ∀ (q : Nat) (b : Int), 0 ≤ b →
      0 ≤ baseAttack st.player + (q : Int) + b := by
    intro q b hb
    have := baseAttack_nonneg st.player
    omega
  by_cases h1 : a = "1"
  · subst h1
    simp only [soloStep]
    exact ⟨boostGuard_inv _ _ _ hs.1,
      hitEnemy_inv _ _ hs.2 (boostGuard_nonneg _ _ _
        (by have := baseAttack_nonneg st.player; omega) (by omega))⟩
  by_cases h2 : a = "2"
  · subst h2
    simp only [soloStep]
    split_ifs
    all_goals first
      | exact hs
      | exact ⟨boostGuard_inv _ _ _ hs.1,
          hitEnemy_inv _ _ hs.2 (boostGuard_nonneg _ _ _ (by omega) (by omega))⟩
  by_cases h3 : a = "3"
  · subst h3
    simp only [soloStep]
    have hsp := soloSpecial_inv st hs
    generalize hS : soloSpecial st = sp at hsp ⊢
    obtain ⟨spu, spc, sps⟩ := sp
    dsimp only at hsp ⊢
    repeat' split
    all_goals first
      | trivial
      | exact hsp
      | exact hs
      | exact ⟨boostGuard_inv _ _ _ hs.1,
          hitEnemy_inv _ _ hs.2 (boostGuard_nonneg _ _ _ (by omega) (by omega))⟩
  by_cases h4 : a = "4"
  · subst h4
    simp only [soloStep]
    have hsp := soloSpecial_inv st hs
    have hui := soloUseInventory_inv st hs
    generalize hS : soloSpecial st = sp at hsp ⊢
    generalize hU : soloUseInventory st = ui at hui ⊢
    obtain ⟨spu, spc, sps⟩ := sp
    obtain ⟨uiu, uis⟩ := ui
    dsimp only at hsp hui ⊢
    repeat' split
    all_goals first
      | trivial
      | exact hsp
      | exact hui
      | exact hs
  by_cases h5 : a = "5"
  · subst h5
    simp only [soloStep]
    have hui := soloUseInventory_inv st hs
    generalize hU : soloUseInventory st = ui at hui ⊢
    obtain ⟨uiu, uis⟩ := ui
    dsimp only at hui ⊢
    repeat' split
    all_goals first
      | trivial
      | exact hui
      | exact hs
  by_cases h6 : a = "6"
  · subst h6
    simp only [soloStep]
    repeat' split
    all_goals first | trivial | exact hs
  by_cases h7 : a = "7"
  · subst h7
    simp only [soloStep]
    repeat' split
    all_goals first | trivial | exact hs
  simp only [soloStep, h1, h2, h3, h4, h5, h6, h7]
  exact hs

theorem soloStep_inv (opts : battleOptions) (a : String) (st : SoloState)
    (ct : Bool) (st2 : SoloState) (hs : soloInv st)
    (h : soloStep opts a st = some (ct, st2)) : soloInv st2 := by
  have ha := soloStep_inv_aux opts a st hs
  rw [h] at ha
  exact ha

theorem soloIter_inv (opts : battleOptions) (st : SoloState) (hs : soloInv st) :
    soloInv (soloIter opts st).2 := by
  unfold soloIter
  obtain ⟨a, i2, m2⟩ := readInput st.inputs st.menuReq
  dsimp only
  cases m2 with
  | true =>
      simp only [if_pos rfl]
      exact hs
  | false =>
      simp only [Bool.false_eq_true, if_false]
      rcases hstep : soloStep opts a { st with inputs := i2, menuReq := false }
        with _ | ⟨ct, st2⟩
      · repeat' split
        all_goals first | exact hs | simp_all
      · have hb : soloInv st2 :=
          soloStep_inv opts a { st with inputs := i2, menuReq := false } ct st2 hs hstep
        repeat' split
        all_goals first
          | exact hb
          | exact soloEnemyPhase_inv _ hb
          | (simp_all
             first | done | exact hb | exact soloEnemyPhase_inv _ hb)

theorem soloInit_inv (opts : battleOptions) (st : SoloState) (hs : soloInv st) :
    initInvOK (soloInit opts st) := by
  have hc0 := hs.1
  have he0 := hs.2
  unfold soloInit
  dsimp only
  split
  next st1 heq =>
    dsimp only [initInvOK]
    split at heq
    · split at heq
      · rw [SoloInitRes.menuAbort.injEq] at heq
        subst heq
        refine ⟨resetCombatFlags_inv _ hc0, ?_⟩
        unfold enemyInv at he0 ⊢
        dsimp only
        split_ifs <;> first | omega | (dsimp only; omega)
      · split at heq <;> simp at heq
    · simp at heq
  next bet st1 heq =>
    dsimp only [initInvOK]
    split at heq
    · split at heq
      · simp at heq
      · split at heq <;>
          (rw [SoloInitRes.go.injEq] at heq
           obtain ⟨h1, h2⟩ := heq
           subst h1
           subst h2
           refine ⟨resetCombatFlags_inv _ hc0, ?_⟩
           unfold enemyInv at he0 ⊢
           dsimp only
           split_ifs <;> first | omega | (dsimp only; omega))
    · rw [SoloInitRes.go.injEq] at heq
      obtain ⟨h1, h2⟩ := heq
      subst h1
      subst h2
      refine ⟨resetCombatFlags_inv _ hc0, ?_⟩
      unfold enemyInv at he0 ⊢
      dsimp only
      split_ifs <;> first | omega | (dsimp only; omega)

theorem soloVictory_inv (opts : battleOptions) (bet : Int) (st : SoloState)
    (hs : soloInv st) : soloInv (soloVictory opts bet st) := by
  unfold soloVictory
  dsimp only
  split_ifs
  all_goals refine ⟨?_, hs.2⟩
  all_goals first | exact hs.1 | exact gainXP_inv _ _ hs.1

theorem soloDefeat_inv (opts : battleOptions) (bet : Int) (st : SoloState)
    (hs : soloInv st) : soloInv (soloDefeat opts bet st) := by
  unfold soloDefeat
  dsimp only
  split_ifs
  all_goals exact ⟨reviveIfNeeded_inv _ hs.1, hs.2⟩

theorem soloResolve_inv (opts : battleOptions) (bet : Int) (st : SoloState)
    (hs : soloInv st) : soloInv (soloResolve opts bet st).2 := by
  unfold soloResolve
  split
  · exact soloVictory_inv opts bet st hs
  · exact soloDefeat_inv opts bet st hs

theorem soloLoop_inv (opts : battleOptions) (bet : Int) :
    ∀ (fuel : Nat) (st : SoloState), soloInv st →
      soloInv (soloLoop opts bet fuel st).2 := by
  intro fuel
  induction fuel with
  | zero =>
      intro st hs
      exact hs
  | succ n ih =>
      intro st hs
      rw [soloLoop]
      split
      · split
        all_goals rename_i st1 heq
        all_goals have h1 := soloIter_inv opts st hs
        all_goals rw [heq] at h1
        · exact ih st1 h1
        · exact soloResolve_inv opts bet st1 h1
        · exact h1
        · exact h1
      · exact soloResolve_inv opts bet st hs

theorem fightSolo_inv (fuel : Nat) (opts : battleOptions) (st : SoloState)
    (hs : soloInv st) : soloInv (fightSolo fuel opts st).2 := by
  have hi := soloInit_inv opts st hs
  unfold fightSolo
  split
  all_goals rename_i st1 heq
  all_goals rw [heq] at hi
  · exact hi
  · exact soloLoop_inv opts _ fuel _ hi

theorem set_enemyD_inv (p : List Enemy) (i : Nat) (e2 : Enemy)
    (hp : ∀ e ∈ p, enemyInv e)
    (h2 : enemyInv (p.getD i default) → enemyInv e2) :
    ∀ e ∈ p.set i e2, enemyInv e := by
  by_cases hl : i < p.length
  · exact set_enemyInv p i e2 hp (h2 (getD_enemyInv p i hp hl))
  · rw [List.set_eq_of_length_le (by omega)]
    exact hp

theorem partyStrikeAt_inv (st : PartyState) (i j : Nat) (base gb : Int) (spread : Nat)
    (hb : 0 ≤ base) (hg : 0 ≤ gb) (hs : partyInv st) :
    partyInv (partyStrikeAt st i j base gb spread) := by
  obtain ⟨hp, he⟩ := hs
  unfold partyStrikeAt
  dsimp only
  refine ⟨?_, ?_⟩
  · exact set_caster_inv _ _ _ hp (fun hcI => boostGuard_inv _ _ _ hcI)
  · exact set_enemyD_inv _ _ _ he (fun heI => hitEnemy_inv _ _ heI
      (boostGuard_nonneg _ _ _ (by omega) hg))

theorem applyEffect_enemyInv (eid : String) (c : Character) (en : Option Enemy)
    (r : Bool × Character × Option Enemy)
    (hen : optEnemyInv en) (h : applyEffect eid c en = some r) :
    optEnemyInv r.2.2 := by
  unfold applyEffect at h
  repeat' split at h
  all_goals first
    | (rw [Option.some.injEq] at h
       subst h
       first
         | exact hen
         | (dsimp only [optEnemyInv] at hen ⊢
            first
              | exact hitEnemy_inv _ _ hen (by first | omega | (split_ifs <;> omega))
              | (unfold enemyInv at hen ⊢; dsimp only; omega)))
    | simp at h

theorem applyItem_enemyInv (c : Character) (en : Option Enemy) (id : String)
    (hen : optEnemyInv en) :
    optEnemyInv (applyItem c en id).2.2 := by
  unfold applyItem
  split
  · exact hen
  · split
    · exact hen
    · rename_i d r h
      exact applyEffect_enemyInv _ _ _ _ hen h

theorem useInventory_groupInv_aux (c : Character) (so : Option Enemy)
    (group : List Enemy) (inputs : List String) (mflag : Bool)
    (hso : optEnemyInv so) (hg : ∀ e ∈ group, enemyInv e) :
    invGroupOK (useInventory c so group inputs mflag) := by
  have happ : ∀ id, optEnemyInv (applyItem c so id).2.2 :=
    fun id => applyItem_enemyInv c so id hso
  have hset : ∀ (j : Nat) (id : String) (e2 : Enemy),
      (applyItem c (group.get? j) id).2.2 = some e2 → enemyInv e2 := by
    intro j id e2 h22
    have h3 : optEnemyInv (applyItem c (group.get? j) id).2.2 := by
      refine applyItem_enemyInv c _ id ?_
      cases hgj : group.get? j with
      | none => exact trivial
      | some e => exact hg e (List.get?_mem hgj)
    rw [h22] at h3
    exact h3
  unfold useInventory
  split
  · exact ⟨hso, hg⟩
  · dsimp only
    obtain ⟨s, i2, m2⟩ := readInput inputs mflag
    dsimp only
    repeat' split
    all_goals first
      | trivial
      | exact ⟨hso, hg⟩
      | exact ⟨happ _, hg⟩
      | (refine ⟨hso, ?_⟩
         first
           | exact hg
           | (intro x hx
              rcases List.mem_or_eq_of_mem_set hx with hx2 | hx2
              · exact hg x hx2
              · subst hx2
                exact hset _ _ _ (by assumption)))

theorem useInventory_done_charInv {c : Character} {so : Option Enemy}
    {group : List Enemy} {inputs : List String} {mflag u : Bool} {c2 : Character}
    {so2 : Option Enemy} {g2 : List Enemy} {i2 : List String} {m2 : Bool}
    (hc : charInv c) (hso : optEnemyInv so) (hg : ∀ e ∈ group, enemyInv e)
    (h : useInventory c so group inputs mflag = InvRes.done u c2 so2 g2 i2 m2) :
    charInv c2 := by
  have ha := useInventory_inv_aux c so group inputs mflag hc hso hg
  rw [h] at ha
  exact ha.1

theorem useInventory_done_groupInv {c : Character} {so : Option Enemy}
    {group : List Enemy} {inputs : List String} {mflag u : Bool} {c2 : Character}
    {so2 : Option Enemy} {g2 : List Enemy} {i2 : List String} {m2 : Bool}
    (hso : optEnemyInv so) (hg : ∀ e ∈ group, enemyInv e)
    (h : useInventory c so group inputs mflag = InvRes.done u c2 so2 g2 i2 m2) :
    ∀ e ∈ g2, enemyInv e := by
  have ha := useInventory_groupInv_aux c so group inputs mflag hso hg
  rw [h] at ha
  exact ha.2

theorem partyAction_inv (opts : battleOptions) (i : Nat) (action : String)
    (st : PartyState) (hs : partyInv st) : swInvOK (partyAction opts i action st) := by
  obtain ⟨hp, he⟩ := hs
  by_cases h1 : action = "1"
  · subst h1
    simp only [partyAction]
    repeat' split
    all_goals first
      | exact ⟨hp, he⟩
      | exact partyStrikeAt_inv _ _ _ _ _ _ (baseAttack_nonneg _) (by omega) ⟨hp, he⟩
  by_cases h2 : action = "2"
  · subst h2
    simp only [partyAction]
    repeat' split
    all_goals first
      | exact ⟨hp, he⟩
      | exact partyStrikeAt_inv _ _ _ _ _ _ (by omega) (by omega)
          ⟨set_caster_inv _ _ _ hp (fun hcI => hcI), he⟩
  by_cases h3 : action = "3"
  · subst h3
    simp only [partyAction]
    repeat' split
    all_goals first
      | exact ⟨hp, he⟩
      | exact partyStrikeAt_inv _ _ _ _ _ _ (by omega) (by omega)
          ⟨set_caster_inv _ _ _ hp (fun hcI => hcI), he⟩
      | exact ⟨(performSpecial_inv _ hp he).1, (performSpecial_inv _ hp he).2⟩
  by_cases h4 : action = "4"
  · subst h4
    simp only [partyAction]
    repeat' split
    all_goals first
      | exact ⟨hp, he⟩
      | exact ⟨(performSpecial_inv _ hp he).1, (performSpecial_inv _ hp he).2⟩
      | exact ⟨set_caster_inv _ _ _ hp
            (fun hcI => useInventory_done_charInv hcI (show optEnemyInv none from trivial) he (by assumption)),
          useInventory_done_groupInv (show optEnemyInv none from trivial) he (by assumption)⟩
  by_cases h5 : action = "5"
  · subst h5
    simp only [partyAction]
    repeat' split
    all_goals first
      | exact ⟨hp, he⟩
      | exact ⟨set_caster_inv _ _ _ hp
            (fun hcI => useInventory_done_charInv hcI (show optEnemyInv none from trivial) he (by assumption)),
          useInventory_done_groupInv (show optEnemyInv none from trivial) he (by assumption)⟩
  by_cases h6 : action = "6"
  · subst h6
    simp only [partyAction]
    repeat' split
    all_goals exact ⟨hp, he⟩
  by_cases h7 : action = "7"
  · subst h7
    simp only [partyAction]
    repeat' split
    all_goals exact ⟨hp, he⟩
  simp only [partyAction, h1, h2, h3, h4, h5, h6, h7]
  exact ⟨hp, he⟩

theorem partyCharLoop_inv (opts : battleOptions) (i : Nat) :
    ∀ (fuel : Nat) (st : PartyState), partyInv st →
      partyInv (partyCharLoop opts i fuel st).2 := by
  intro fuel
  induction fuel with
  | zero =>
      intro st hs
      exact hs
  | succ n ih =>
      intro st hs
      rw [partyCharLoop]
      obtain ⟨a, i2, m2⟩ := readInput st.inputs st.menuReq
      dsimp only
      cases m2 with
      | true =>
          simp only [if_pos rfl]
          exact hs
      | false =>
          simp only [Bool.false_eq_true, if_false]
          have hpa := partyAction_inv opts i a { st with inputs := i2, menuReq := false } hs
          rcases hq : partyAction opts i a { st with inputs := i2, menuReq := false }
            with st2 | st2 | st2 | st2 | st2 <;>
            rw [hq] at hpa <;> dsimp only [swInvOK] at hpa
          · exact hpa
          · exact ih st2 hpa
          · exact hpa
          · exact hpa
          · exact hpa

theorem partyCharsGo_inv (opts : battleOptions) (fuel : Nat) :
    ∀ (l : List Nat) (st : PartyState), partyInv st →
      partyInv (partyCharsGo opts fuel l st).2 := by
  intro l
  induction l with
  | nil =>
      intro st hs
      exact hs
  | cons i rest ih =>
      intro st hs
      rw [partyCharsGo]
      split
      · exact ih st hs
      · have h1 := partyCharLoop_inv opts i fuel st hs
        split
        all_goals rename_i heq
        all_goals first
          | exact h1
          | (rw [heq] at h1
             exact ih _ h1)

theorem partyEnemyStep_inv (st : PartyState) (idx : Nat) (hs : partyInv st) :
    partyInv (partyEnemyStep st idx) := by
  obtain ⟨hp, he⟩ := hs
  unfold partyEnemyStep
  dsimp only
  by_cases hpo : 0 < (st.enemies.getD idx default).poisonTurns
  · simp only [if_pos hpo, hpo, true_and]
    (repeat' split
     all_goals refine ⟨?_, ?_⟩ <;>
       first
         | exact hp
         | exact he
         | exact set_caster_inv _ _ _ hp (fun hcI => hcI)
         | exact set_caster_inv _ _ _ hp (fun hcI => absorbShieldDamage_inv _ _ hcI)
         | exact set_caster_inv _ _ _ hp (fun hcI =>
             hitChar_inv _ _ (absorbShieldDamage_inv _ _ hcI) (by omega))
         | (refine set_enemyD_inv _ _ _ he (fun heI => ?_)
            unfold enemyInv at heI ⊢
            try dsimp only
            try simp only [hitEnemy, enemyStrike_hp2, enemyStrike_maxHP2,
              enemyStrike_poisonDmg2] at *
            first | omega | (split_ifs <;> omega)))
  · simp only [if_neg hpo, hpo, false_and, if_false]
    (repeat' split
     all_goals refine ⟨?_, ?_⟩ <;>
       first
         | exact hp
         | exact he
         | exact set_caster_inv _ _ _ hp (fun hcI => hcI)
         | exact set_caster_inv _ _ _ hp (fun hcI => absorbShieldDamage_inv _ _ hcI)
         | exact set_caster_inv _ _ _ hp (fun hcI =>
             hitChar_inv _ _ (absorbShieldDamage_inv _ _ hcI) (by omega))
         | (refine set_enemyD_inv _ _ _ he (fun heI => ?_)
            unfold enemyInv at heI ⊢
            try dsimp only
            try simp only [hitEnemy, enemyStrike_hp2, enemyStrike_maxHP2,
              enemyStrike_poisonDmg2] at *
            first | omega | (split_ifs <;> omega)))

theorem partyEnemyPhase_foldl_inv :
    ∀ (l : List Nat) (st : PartyState), partyInv st →
      partyInv (l.foldl partyEnemyStep st) := by
  intro l
  induction l with
  | nil =>
      intro st hs
      exact hs
  | cons i rest ih =>
      intro st hs
      rw [List.foldl_cons]
      exact ih _ (partyEnemyStep_inv st i hs)

theorem partyEnemyPhase_inv (st : PartyState) (hs : partyInv st) :
    partyInv (partyEnemyPhase st) := by
  unfold partyEnemyPhase
  exact partyEnemyPhase_foldl_inv _ st hs

theorem partyVictoryBlock_inv (opts : battleOptions) (st : PartyState)
    (hs : partyInv st) : partyInv (partyVictoryBlock opts st) := by
  obtain ⟨hp, he⟩ := hs
  unfold partyVictoryBlock
  dsimp only
  split_ifs
  all_goals refine ⟨?_, he⟩
  all_goals first
    | exact hp
    | (intro x hx
       rw [List.mem_map] at hx
       obtain ⟨a, ha, hax⟩ := hx
       subst hax
       exact gainXP_inv _ _ (hp a ha))

theorem partyDefeatBlock_inv (st : PartyState) (hs : partyInv st) :
    partyInv (partyDefeatBlock st) := by
  obtain ⟨hp, he⟩ := hs
  unfold partyDefeatBlock
  refine ⟨?_, he⟩
  intro x hx
  rw [List.mem_map] at hx
  obtain ⟨a, ha, hax⟩ := hx
  subst hax
  exact reviveIfNeeded_inv _ (hp a ha)

theorem partyRound_inv (opts : battleOptions) (fuel : Nat) (st : PartyState)
    (hs : partyInv st) : partyInv (partyRound opts fuel st).2 := by
  unfold partyRound
  split
  · exact partyVictoryBlock_inv opts st hs
  · split
    · exact partyDefeatBlock_inv st hs
    · have h1 := partyCharsGo_inv opts fuel (List.range st.party.length) st hs
      split
      all_goals rename_i heq
      all_goals rw [heq] at h1
      · split
        · exact h1
        · exact partyEnemyPhase_inv _ h1
      all_goals exact h1

theorem partyLoop_inv (opts : battleOptions) (fuel : Nat) :
    ∀ (n : Nat) (st : PartyState), partyInv st →
      partyInv (partyLoop opts fuel n st).2 := by
  intro n
  induction n with
  | zero =>
      intro st hs
      exact hs
  | succ n ih =>
      intro st hs
      rw [partyLoop]
      have h1 := partyRound_inv opts fuel st hs
      split
      all_goals rename_i heq
      all_goals rw [heq] at h1
      · exact ih _ h1
      all_goals exact h1

theorem fightParty_inv (fuel : Nat) (opts : battleOptions) (st : PartyState)
    (hs : partyInv st) : partyInv (fightParty fuel opts st).2 := by
  obtain ⟨hp, he⟩ := hs
  unfold fightParty
  dsimp only
  refine partyLoop_inv opts fuel fuel _ ⟨?_, ?_⟩
  · intro x hx
    rw [List.mem_map] at hx
    obtain ⟨a, ha, hax⟩ := hx
    subst hax
    exact reviveIfNeeded_inv _ (resetCombatFlags_inv _ (hp a ha))
  · intro x hx
    rw [List.mem_map] at hx
    obtain ⟨a, ha, hax⟩ := hx
    subst hax
    have := he a ha
    unfold enemyInv at *
    dsimp only
    split_ifs <;> first | omega | (dsimp only; omega)

/-- C8: the health bounds `0 ≤ hp ≤ maxHP` for every character and every
enemy (with a non-negative enemy poison tick) are preserved by one
iteration of the solo round loop, by a whole solo encounter, by one round
of the party loop, and by a whole party encounter, for every input and
random stream. -/
theorem health_bounds_spec :
    (∀ (opts : battleOptions) (st : SoloState),
      soloInv st → soloInv (soloIter opts st).2) ∧
    (∀ (fuel : Nat) (opts : battleOptions) (st : SoloState),
      soloInv st → soloInv (fightSolo fuel opts st).2) ∧
    (∀ (opts : battleOptions) (fuel : Nat) (st : PartyState),
      partyInv st → partyInv (partyRound opts fuel st).2) ∧
    (∀ (fuel : Nat) (opts : battleOptions) (st : PartyState),
      partyInv st → partyInv (fightParty fuel opts st).2) :=
  ⟨fun opts st hs => soloIter_inv opts st hs,
   fun fuel opts st hs => fightSolo_inv fuel opts st hs,
   fun opts fuel st hs => partyRound_inv opts fuel st hs,
   fun fuel opts st hs => fightParty_inv fuel opts st hs⟩

theorem health_bounds_spec_witness :
    soloInv c2State ∧ partyInv c4Party ∧
    soloInv (fightSolo 4 betOpts c2State).2 ∧
    partyInv (fightParty 6 plainOpts c4Party).2 :=
  ⟨by decide, by decide,
   health_bounds_spec.2.1 4 betOpts c2State (by decide),
   health_bounds_spec.2.2.2 6 plainOpts c4Party (by decide)⟩

end HatsuneWorld
